import Mathlib

/- Verification of the distributed-tensor operator dispatch and sharding
propagation engine of this repository: the tensor-parallel halo-exchange
convolution (torch/distributed/_tensor/tp_conv.py), the convolution sharding
rules (torch/distributed/_tensor/ops/conv_ops.py) and the dispatch driver
(torch/distributed/_tensor/dispatch.py).

The halo-exchange functions slice, exchange, concatenate and trim tensors
only along the last (W) spatial axis; the batch, channel and H axes are
carried pointwise by every operation involved. The embedding therefore
models one W-row with integer entries: a tensor is a List Int indexed by the
W coordinate, and a 2-D convolution restricted to that row is a 1-D
convolution whose kernel row is a List Int. Integer arithmetic is exact, so
an equality of integers is in particular an equality within any
floating-point tolerance such as atol = 1e-5. -/

instance {ε α : Type} [DecidableEq ε] [DecidableEq α] : DecidableEq (Except ε α) := fun x y =>
  match x, y with
  | Except.error a, Except.error b =>
    if h : a = b then Decidable.isTrue (congrArg Except.error h)
    else Decidable.isFalse (fun hh => h (Except.error.inj hh))
  | Except.ok a, Except.ok b =>
    if h : a = b then Decidable.isTrue (congrArg Except.ok h)
    else Decidable.isFalse (fun hh => h (Except.ok.inj hh))
  | Except.error _, Except.ok _ => Decidable.isFalse (fun hh => Except.noConfusion hh)
  | Except.ok _, Except.error _ => Decidable.isFalse (fun hh => Except.noConfusion hh)

/-- Total indexing into an integer list, 0 past the end (reading one
W-column of a tensor). -/
def idx (xs : List Int) (i : Nat) : Int := xs.getD i 0

/-- Sum f 0 + ... + f (n - 1), used to express a convolution window. -/
def sumRange (f : Nat → Int) : Nat → Int
  | 0 => 0
  | n + 1 => sumRange f n + f n

/-- Zero padding with p columns on both W edges, as torch convolution
padding does. -/
def zpad (p : Nat) (xs : List Int) : List Int :=
  List.replicate p 0 ++ xs ++ List.replicate p 0

/-- One convolution window of kernel ker over xs starting at column j. -/
def convAt (ker xs : List Int) (j : Nat) : Int :=
  sumRange (fun t => idx ker t * idx xs (j + t)) ker.length

/-- Number of output columns of a dilation-1 convolution, the standard
formula out = (inLen + 2 p - (k - 1) - 1) / stride + 1. -/
def convOutLen (inLen k stride p : Nat) : Nat :=
  (inLen + 2 * p - (k - 1) - 1) / stride + 1

/-- Plain local 1-D convolution along the W axis with the given stride and
symmetric zero padding (dilation 1): the reference operator
aten.convolution restricted to one W-row, which the halo path is compared
against. -/
def conv1d (ker xs : List Int) (stride p : Nat) : List Int :=
  (List.range (convOutLen xs.length ker.length stride p)).map
    fun i => convAt ker (zpad p xs) (i * stride)

/-- W-axis core of _requires_data_exchange from tp_conv.py: exchange is
needed exactly when the W padding component is non-zero. -/
def requiresDataExchangeW (p : Nat) : Bool := p ≠ 0

/-- _requires_data_exchange from tp_conv.py: reads padding[1]. -/
def requires_data_exchange (padding : List Nat) : Bool :=
  requiresDataExchangeW (padding.getD 1 0)

/-- W-axis core of _is_supported from tp_conv.py, taking the components the
Python code actually reads: n = input_size[3], k = kernel_size[3],
stride = stride[1], p = padding[1], dil = dilation[1]. A raised
RuntimeError is modelled as Except.error with the exact message. -/
def isSupportedW (n k stride p dil : Nat) : Except String Bool :=
  if dil ≠ 1 then
    Except.error ("Dilation must be 1 for tensor parallel convolution.")
  else if p ≠ 0 then
    if stride ≠ 1 then
      Except.error ("Stride must be 1 when there is padding for tensor parallel convolution.")
    else if k / 2 > n then
      Except.error ("kernel_size[3] // 2 should be less than or equal to input_size[3] for tensor parallel convolution.")
    else Except.ok true
  else
    if ¬ (n % stride = 0 ∧ stride = k) then
      Except.error ("It requires that input_size[3] is divisible by stride[1] and stride[1] equals kernel_size[3] when there is padding for tensor parallel convolution.")
    else Except.ok true

/-- _is_supported from tp_conv.py: reads input_size[3], kernel_size[3],
stride[1], padding[1], dilation[1] and checks them with isSupportedW. -/
def is_supported (input_size kernel_size stride padding dilation : List Nat) :
    Except String Bool :=
  isSupportedW (input_size.getD 3 0) (kernel_size.getD 3 0)
    (stride.getD 1 0) (padding.getD 1 0) (dilation.getD 1 0)

/-- Kind of a point-to-point operation handed to dist.batch_isend_irecv. -/
inductive P2PKind
  | isend
  | irecv
deriving DecidableEq, Repr

/-- One dist.P2POp: kind, the tensor W-row given to it (for irecv this is
the freshly allocated zero buffer), and the peer rank. -/
structure P2POp where
  kind : P2PKind
  payload : List Int
  peer : Nat
deriving DecidableEq, Repr

/-- Python slice x[-d:] on the W axis. For d = 0 Python evaluates x[0:], so
the WHOLE row is taken; the halo-exchange code hits this corner whenever the
kernel width is 1 or 2 (then d1 = (k - 1) / 2 = 0). -/
def negSliceLast (xs : List Int) (d : Nat) : List Int :=
  if d = 0 then xs else xs.drop (xs.length - d)

/-- Python slice x[:-d] on the W axis. For d = 0 Python evaluates x[:0],
the EMPTY row. -/
def negTrimLast (xs : List Int) (d : Nat) : List Int :=
  if d = 0 then [] else xs.take (xs.length - d)

/-- Step 2 of tp_convolution: concatenate the received halos onto the local
input; rank 0 uses only the right halo, rank size - 1 only the left halo. -/
def reconstructInput (inT recvL recvR : List Int) (r size : Nat) : List Int :=
  if r = 0 then inT ++ recvR
  else if r = size - 1 then recvL ++ inT
  else recvL ++ inT ++ recvR

/-- Step 4 of tp_convolution: trim the extra output columns produced by the
halos, res[: w - p] on rank 0, res[p :] on rank size - 1, res[p : w - p]
in the interior. -/
def trimOutput (res : List Int) (p r size : Nat) : List Int :=
  if r = 0 then res.take (res.length - p)
  else if r = size - 1 then res.drop p
  else (res.take (res.length - p)).drop p

/-- tp_convolution from tp_conv.py on rank r, W-axis model. shards lists
the per-rank local input rows (shards.length is the world size), ker is the
W-row of the weight (so ker.length = weight.shape[3]), and stride, p, dil
are the W components stride[1], padding[1], dilation[1]. Returns the value
the rank returns (or the raised error) together with the list of P2P
operations the rank posts, in the order of the batch_isend_irecv call
[send right, send left, recv left, recv right]. The received halo contents
are the matching slices of the neighbour shards, exactly what the
neighbour posts on its side of the same exchange. -/
def tpConvSim (shards : List (List Int)) (ker : List Int)
    (stride p dil : Nat) (r : Nat) :
    Except String (List Int) × List P2POp :=
  let size := shards.length
  let inT := shards.getD r []
  let k := ker.length
  match isSupportedW inT.length k stride p dil with
  | Except.error e => (Except.error e, [])
  | Except.ok _ =>
    if ¬ requiresDataExchangeW p then
      (Except.ok (conv1d ker inT stride p), [])
    else
      let d := k - 1
      let d1 := d / 2
      let d2 := d - d1
      let right := (r + 1) % size
      let left := (r + size - 1) % size
      let sendToRight := negSliceLast inT d1
      let sendToLeft := inT.take d2
      let recvFromRight := (shards.getD right []).take d2
      let recvFromLeft := negSliceLast (shards.getD left []) d1
      let ops := [⟨P2PKind.isend, sendToRight, right⟩,
                  ⟨P2PKind.isend, sendToLeft, left⟩,
                  ⟨P2PKind.irecv, List.replicate sendToRight.length 0, left⟩,
                  ⟨P2PKind.irecv, List.replicate sendToLeft.length 0, right⟩]
      let inT2 := reconstructInput inT recvFromLeft recvFromRight r size
      let res := conv1d ker inT2 stride p
      (Except.ok (trimOutput res p r size), ops)

/-- Result component of tp_convolution on rank r. -/
def tp_convolution (shards : List (List Int)) (ker : List Int)
    (stride p dil : Nat) (r : Nat) : Except String (List Int) :=
  (tpConvSim shards ker stride p dil r).1

/-- Point-to-point operations posted by tp_convolution on rank r. -/
def tpConvolutionComms (shards : List (List Int)) (ker : List Int)
    (stride p dil : Nat) (r : Nat) : List P2POp :=
  (tpConvSim shards ker stride p dil r).2

/-- Step 3 of tp_convolution_backward: zero-pad the incoming gradient at
the columns the forward pass trimmed. -/
def gradPad (g : List Int) (p r size : Nat) : List Int :=
  if r = 0 then g ++ List.replicate p 0
  else if r = size - 1 then List.replicate p 0 ++ g
  else List.replicate p 0 ++ g ++ List.replicate p 0

/-- In-place slice assignment xs[-d:] = xs[-d:] + ys (the d = 0 Python
corner assigns to the whole row). -/
def addLastSlice (xs ys : List Int) (d : Nat) : List Int :=
  if d = 0 then List.zipWith (· + ·) xs ys
  else xs.take (xs.length - d) ++ List.zipWith (· + ·) (xs.drop (xs.length - d)) ys

/-- In-place slice assignment xs[:d] = xs[:d] + ys. -/
def addFirstSlice (xs ys : List Int) (d : Nat) : List Int :=
  List.zipWith (· + ·) (xs.take d) ys ++ xs.drop d

/-- Step 5 of tp_convolution_backward: trim the edge columns of grad_input
and add in the overlap contributions received from the neighbours. -/
def aggregateGrad (gi recvL recvR : List Int) (d1 d2 r size : Nat) : List Int :=
  if r = 0 then addLastSlice (negTrimLast gi d2) recvR d1
  else if r = size - 1 then addFirstSlice (gi.drop d1) recvL d2
  else addFirstSlice (addLastSlice ((negTrimLast gi d2).drop d1) recvR d1) recvL d2

/-- Local grad_input produced on rank r by the local convolution_backward
call of tp_convolution_backward, before the second halo exchange.
localBackward abstracts the external aten.convolution_backward operator
restricted to one W-row (grad_output row, input row) -> grad_input row; the
grad_weight and grad_bias outputs are returned by the real code untouched by
the halo logic and are not modelled. -/
def bwGradIn (localBackward : List Int → List Int → List Int)
    (gradOuts shards : List (List Int)) (ker : List Int) (p : Nat) (r : Nat) :
    List Int :=
  let size := shards.length
  let inT := shards.getD r []
  let k := ker.length
  let d := k - 1
  let d1 := d / 2
  let d2 := d - d1
  let right := (r + 1) % size
  let left := (r + size - 1) % size
  let recvFromRight := (shards.getD right []).take d2
  let recvFromLeft := negSliceLast (shards.getD left []) d1
  let inT2 := reconstructInput inT recvFromLeft recvFromRight r size
  localBackward (gradPad (gradOuts.getD r []) p r size) inT2

/-- tp_convolution_backward from tp_conv.py on rank r, W-axis model:
support check, first halo exchange reconstructing the input, gradient
padding, local backward convolution, and the second halo exchange that
aggregates the grad_input edge columns. Returns the grad_input row the rank
returns together with all posted P2P operations (both exchange rounds). -/
def tpConvBackwardSim (localBackward : List Int → List Int → List Int)
    (gradOuts shards : List (List Int)) (ker : List Int)
    (stride p dil : Nat) (r : Nat) :
    Except String (List Int) × List P2POp :=
  let size := shards.length
  let inT := shards.getD r []
  let k := ker.length
  match isSupportedW inT.length k stride p dil with
  | Except.error e => (Except.error e, [])
  | Except.ok _ =>
    if ¬ requiresDataExchangeW p then
      (Except.ok (localBackward (gradOuts.getD r []) inT), [])
    else
      let d := k - 1
      let d1 := d / 2
      let d2 := d - d1
      let right := (r + 1) % size
      let left := (r + size - 1) % size
      let sendToRight := negSliceLast inT d1
      let sendToLeft := inT.take d2
      let ops1 := [⟨P2PKind.isend, sendToRight, right⟩,
                   ⟨P2PKind.isend, sendToLeft, left⟩,
                   ⟨P2PKind.irecv, List.replicate sendToRight.length 0, left⟩,
                   ⟨P2PKind.irecv, List.replicate sendToLeft.length 0, right⟩]
      let gi := bwGradIn localBackward gradOuts shards ker p r
      let sendToRight2 := negSliceLast gi d2
      let sendToLeft2 := gi.take d1
      let recvFromRight2 := (bwGradIn localBackward gradOuts shards ker p right).take d1
      let recvFromLeft2 := negSliceLast (bwGradIn localBackward gradOuts shards ker p left) d2
      let ops2 := [⟨P2PKind.isend, sendToRight2, right⟩,
                   ⟨P2PKind.isend, sendToLeft2, left⟩,
                   ⟨P2PKind.irecv, List.replicate sendToRight2.length 0, left⟩,
                   ⟨P2PKind.irecv, List.replicate sendToLeft2.length 0, right⟩]
      (Except.ok (aggregateGrad gi recvFromLeft2 recvFromRight2 d1 d2 r size),
        ops1 ++ ops2)

/-- Oracle re-sharding of the full convolution output: number of output
columns rank r holds. With zero padding the local convolutions tile the
global one evenly; with non-zero padding the edge ranks keep the extra
boundary columns (n + p - d1 on rank 0, n + p - d2 on the last rank, n in
the interior), which for the classic same convolution p = d1 = d2 is again
the even split. -/
def shardOutLen (n k stride p size r : Nat) : Nat :=
  if p = 0 then n / stride
  else if r = 0 then n + p - (k - 1) / 2
  else if r = size - 1 then n + p - ((k - 1) - (k - 1) / 2)
  else n

/-- Oracle re-sharding of the full convolution output: first output column
rank r holds. -/
def shardOutOff (n k stride p _size r : Nat) : Nat :=
  if p = 0 then r * (n / stride)
  else if r = 0 then 0
  else r * n + p - (k - 1) / 2

/-- Placement of one mesh dimension, per the data model: Shard(dim),
Replicate, or the pending-reduction marker Partial (sum). -/
inductive Placement
  | shard (dim : Nat)
  | replicate
  | partialSum
deriving DecidableEq, Repr

/-- Modelled from the spec: the device mesh is an external collaborator
(device-mesh construction is out of scope); sharding propagation only needs
its number of mesh dimensions and its identity, which travels through
descriptors unchanged. -/
structure DeviceMesh where
  ndim : Nat
  meshId : Nat
deriving DecidableEq, Repr

/-- Tensor metadata carried by a sharding descriptor: logical shape, logical
stride, dtype. Sizes are Int to match Python int arithmetic in the rules. -/
structure TensorMeta where
  shape : List Int
  stride : List Int
  dtype : String
deriving DecidableEq, Repr

/-- Sharding descriptor (DTensorSpec): mesh, one Placement per mesh
dimension, tensor metadata. Immutable value. -/
structure DTensorSpec where
  mesh : DeviceMesh
  placements : List Placement
  tensor_meta : TensorMeta
deriving DecidableEq, Repr

instance : Inhabited DTensorSpec :=
  ⟨⟨⟨0, 0⟩, [], ⟨[], [], "float32"⟩⟩⟩

/-- Modelled from the spec: DTensorSpec.dim_map (placement_types.py is not
among the sampled sources). For each tensor dimension i it gives the mesh
dimension whose placement is Shard(i), and -1 if the tensor dimension is
not sharded. -/
def DTensorSpec.dim_map (s : DTensorSpec) : List Int :=
  (List.range s.tensor_meta.shape.length).map fun i =>
    match s.placements.findIdx? (fun pl => pl = Placement.shard i) with
    | some m => (m : Int)
    | none => -1

/-- Modelled from the spec: DTensorSpec.sums (placement_types.py is not
among the sampled sources): the mesh dimensions carrying a
pending-reduction (Partial) marker. -/
def DTensorSpec.sums (s : DTensorSpec) : List Nat :=
  (List.range s.placements.length).filter fun m =>
    s.placements.getD m Placement.replicate = Placement.partialSum

/-- Modelled from the spec: DTensorSpec.from_dim_map (placement_types.py is
not among the sampled sources). Builds the placements from a dim_map and a
pending-sums list: mesh dimension m is Partial when m is in sums, Shard(i)
when dim_map maps tensor dimension i to m, and Replicate otherwise. -/
def DTensorSpec.from_dim_map (mesh : DeviceMesh) (dim_map : List Int)
    (sums : List Nat) (tensor_meta : TensorMeta) : DTensorSpec :=
  ⟨mesh,
    (List.range mesh.ndim).map fun m =>
      if sums.contains m then Placement.partialSum
      else
        match dim_map.findIdx? (fun d => d = (m : Int)) with
        | some i => Placement.shard i
        | none => Placement.replicate,
    tensor_meta⟩

/-- A descriptor is fully Replicate when no mesh dimension carries a Shard
placement or a pending-reduction marker. -/
def isFullyReplicate (s : DTensorSpec) : Bool :=
  s.placements.all fun pl => pl = Placement.replicate

/-- Non-tensor Python values travelling through args and kwargs. -/
inductive Value
  | int (i : Int)
  | intList (xs : List Int)
  | boolV (b : Bool)
  | boolList (bs : List Bool)
  | strV (s : String)
  | noneV
deriving DecidableEq, Repr

/-- Entry of OpSchema.args_schema: a DTensor argument replaced by its
sharding descriptor, or a plain non-tensor value. -/
inductive SchemaArg
  | spec (s : DTensorSpec)
  | val (v : Value)
deriving DecidableEq, Repr

/-- One formal argument of an operator signature, with its is-out flag. -/
structure FuncArg where
  name : String
  is_out : Bool
deriving DecidableEq, Repr

/-- Operator signature: name, overload name, formal argument list. -/
structure FuncSchema where
  name : String
  overload_name : String
  arguments : List FuncArg
deriving DecidableEq, Repr

/-- OpSchema from dispatch.py: the function schema, the args and kwargs
with DTensors replaced by their descriptors, and the two derived flags. -/
structure OpSchema where
  func_schema : FuncSchema
  args_schema : List SchemaArg
  kwargs_schema : List (String × SchemaArg)
  is_inplace : Bool
  is_out_variant : Bool
deriving DecidableEq, Repr

/-- The Python check name[-1] == underscore of the post-init analysis, on
the character list (an empty name, impossible for an operator, gives
false where Python would raise IndexError). -/
def nameEndsUnderscore (s : String) : Bool :=
  s.data.getLast? = some (Char.ofNat 95)

/-- The Python substring containment test pat in s, character based. -/
def strContainsStr (s pat : String) : Bool :=
  (List.range (s.data.length + 1)).any fun i =>
    (s.data.drop i).take pat.data.length = pat.data

/-- Constructor of OpSchema mirroring the dataclass plus its post-init
analysis: is_inplace iff the last character of the schema name is an
underscore, is_out_variant iff the overload name contains the substring
out. -/
def mkOpSchema (fs : FuncSchema) (args_schema : List SchemaArg)
    (kwargs_schema : List (String × SchemaArg)) : OpSchema :=
  ⟨fs, args_schema, kwargs_schema,
    nameEndsUnderscore fs.name,
    strContainsStr fs.overload_name ("out")⟩

/-- args_spec property of OpSchema: the descriptors present in args_schema,
in order, with non-tensor entries filtered out. -/
def OpSchema.args_spec (s : OpSchema) : List DTensorSpec :=
  s.args_schema.filterMap fun a =>
    match a with
    | SchemaArg.spec sp => some sp
    | SchemaArg.val _ => none

/-- Output of a sharding rule: a single descriptor or a tuple of them. -/
inductive OutputSpecType
  | one (s : DTensorSpec)
  | many (ss : List DTensorSpec)
deriving DecidableEq, Repr

/-- OutputSharding from dispatch.py: optional output spec, optional
suggestion list, optional failure diagnostic. -/
structure OutputSharding where
  output_spec : Option OutputSpecType
  schema_suggestions : Option (List OpSchema)
  failed_reason : Option String
deriving DecidableEq, Repr

/-- A sharding propagation rule; a raised Python exception is modelled as
Except.error. -/
abbrev Rule := OpSchema → Except String OutputSharding

/-- convolution_rules from conv_ops.py: unpacks the nine argument entries,
computes the output spatial sizes with the standard convolution formula
(Python floor division is Int.fdiv), the contiguous output stride, and
propagates the input placement (dim_map and pending sums) unchanged through
DTensorSpec.from_dim_map. Python IndexError and unpack errors are modelled
as Except.error. -/
def convolution_rules (op_schema : OpSchema) : Except String OutputSharding :=
  match op_schema.args_schema with
  | [SchemaArg.spec input_spec, SchemaArg.spec weight_spec, _bias,
     SchemaArg.val (Value.intList stride), SchemaArg.val (Value.intList padding),
     SchemaArg.val (Value.intList dilation), _transposed, _output_padding, _groups] =>
    let in_shape := input_spec.tensor_meta.shape
    let weight_shape := weight_spec.tensor_meta.shape
    if 4 ≤ in_shape.length ∧ 4 ≤ weight_shape.length ∧ 2 ≤ stride.length ∧
        2 ≤ padding.length ∧ 2 ≤ dilation.length then
      let n := in_shape.getD 0 0
      let c_out := weight_shape.getD 0 0
      let h_out := (in_shape.getD 2 0 + 2 * padding.getD 0 0
        - dilation.getD 0 0 * (weight_shape.getD 2 0 - 1) - 1).fdiv (stride.getD 0 0) + 1
      let w_out := (in_shape.getD 3 0 + 2 * padding.getD 1 0
        - dilation.getD 1 0 * (weight_shape.getD 3 0 - 1) - 1).fdiv (stride.getD 1 0) + 1
      let output_shape := [n, c_out, h_out, w_out]
      let output_stride := [c_out * h_out * w_out, h_out * w_out, w_out, 1]
      let output_dim_map := input_spec.dim_map
      let pending_sums := input_spec.sums
      let tensor_meta : TensorMeta :=
        ⟨output_shape, output_stride, input_spec.tensor_meta.dtype⟩
      Except.ok
        ⟨some (OutputSpecType.one
          (DTensorSpec.from_dim_map input_spec.mesh output_dim_map pending_sums tensor_meta)),
          none, none⟩
    else Except.error ("IndexError: tuple index out of range")
  | _ => Except.error ("ValueError: not enough values to unpack")

/-- convolution_backward_rules from conv_ops.py: grad_input mirrors the
input descriptor; grad_weight and grad_bias are built un-sharded with a
pending-reduction marker on mesh dimension 0. -/
def convolution_backward_rules (op_schema : OpSchema) : Except String OutputSharding :=
  match op_schema.args_schema with
  | [SchemaArg.spec _grad_output_spec, SchemaArg.spec input_spec, SchemaArg.spec weight_spec,
     SchemaArg.val (Value.intList bias_shape_opt), _stride, _padding, _dilation,
     _transposed, _output_padding, _groups, _output_mask] =>
    let weight_tensor_meta := weight_spec.tensor_meta
    let bias_tensor_meta : TensorMeta :=
      ⟨bias_shape_opt, [1], input_spec.tensor_meta.dtype⟩
    let grad_input_spec := input_spec
    let grad_weight_spec :=
      DTensorSpec.from_dim_map input_spec.mesh [-1, -1, -1, -1] [0] weight_tensor_meta
    let grad_bias_spec :=
      DTensorSpec.from_dim_map input_spec.mesh [-1] [0] bias_tensor_meta
    Except.ok
      ⟨some (OutputSpecType.many [grad_input_spec, grad_weight_spec, grad_bias_spec]),
        none, none⟩
  | _ => Except.error ("ValueError: not enough values to unpack")

/-- The Rule Registry entries populated by conv_ops.py via
register_prop_rule. -/
def op_to_conv_rules : List (String × Rule) :=
  [("aten.convolution.default", convolution_rules),
   ("aten.convolution_backward.default", convolution_backward_rules)]

/-- A distributed tensor value: object identity, local shard (one W-row in
this model), and its sharding descriptor (the mutable _spec slot). -/
structure DTensor where
  tid : Nat
  local_tensor : List Int
  spec : DTensorSpec
deriving DecidableEq, Repr

instance : Inhabited DTensor := ⟨⟨0, [], default⟩⟩

/-- An argument of a dispatched call: a DTensor or a non-tensor value. -/
inductive DArg
  | dt (t : DTensor)
  | val (v : Value)
deriving DecidableEq, Repr

/-- An argument of the local operator call after unwrapping. -/
inductive LocalArg
  | ltensor (t : List Int)
  | lval (v : Value)
deriving DecidableEq, Repr

/-- Raw result of the local operator: a tensor or a tuple of tensors. -/
inductive LocalRes
  | single (t : List Int)
  | tup (ts : List (List Int))
deriving DecidableEq, Repr

/-- Result of operator_dispatch: a DTensor, a tuple of DTensors, or a value
delegated to a decomposition. -/
inductive DispatchOut
  | one (t : DTensor)
  | tup (ts : List DTensor)
  | delegated (tag : String)
deriving DecidableEq, Repr

/-- An operator overload: its qualified-name key (str(op_call)), its
function schema, and the local computation it performs on local tensors
(an external collaborator, abstracted as a function). -/
structure OpOverload where
  key : String
  func_schema : FuncSchema
  localImpl : List LocalArg → List (String × LocalArg) → LocalRes

/-- A user-supplied custom dispatch override. -/
abbrev CustomFn := List DArg → List (String × DArg) → Except String DispatchOut

/-- Association-list lookup keyed by string, as Python dict.get. -/
def lookupStr {α : Type} (l : List (String × α)) (k : String) : Option α :=
  (l.find? fun kv => kv.1 = k).map fun kv => kv.2

/-- Keys of _CURRENT_DECOMPOSITION_TABLE in dispatch.py. -/
def decompositionTableKeys : List String := ["aten._reshape_alias.default"]

/-- Modelled from the spec: unwrap_schema from utils.py (not among the
sampled sources): replace a DTensor argument by its sharding descriptor. -/
def unwrap_schema (a : DArg) : SchemaArg :=
  match a with
  | DArg.dt t => SchemaArg.spec t.spec
  | DArg.val v => SchemaArg.val v

/-- Modelled from the spec: unwrap_local_tensor from utils.py (not among
the sampled sources): replace a DTensor argument by its local shard. -/
def unwrap_local_tensor (a : DArg) : LocalArg :=
  match a with
  | DArg.dt t => LocalArg.ltensor t.local_tensor
  | DArg.val v => LocalArg.lval v

/-- Modelled from the spec: wrap from utils.py (not among the sampled
sources): construct new distributed-tensor value(s) wrapping the raw local
result(s) with the given output spec. Fresh wrappers carry object id 0. -/
def wrap (res : LocalRes) (spec : Option OutputSpecType) : Except String DispatchOut :=
  match res, spec with
  | _, none => Except.error ("wrap: no output spec")
  | LocalRes.single t, some (OutputSpecType.one s) =>
    Except.ok (DispatchOut.one ⟨0, t, s⟩)
  | LocalRes.tup ts, some (OutputSpecType.many ss) =>
    if ts.length = ss.length then
      Except.ok (DispatchOut.tup ((List.zip ts ss).map fun pr => ⟨0, pr.1, pr.2⟩))
    else Except.error ("wrap: result and spec length mismatch")
  | _, _ => Except.error ("wrap: result and spec shape mismatch")

/-- The OpSchema the Propagation Driver builds for one call: args and
kwargs with every DTensor unwrapped to its descriptor. -/
def schemaOfCall (fs : FuncSchema) (args : List DArg)
    (kwargs : List (String × DArg)) : OpSchema :=
  mkOpSchema fs (args.map unwrap_schema)
    (kwargs.map fun p => (p.1, unwrap_schema p.2))

/-- propagate_input_sharding from dispatch.py, instrumented with the number
of rule invocations it performs (second component). Branches: missing rule
(NotImplementedError unless the fallback flag is set), rule call with
exception wrapping, success with an output spec, retry once on the first
suggestion (the retry is outside the try block, so its exception propagates
raw, and its result is returned whether or not it carries an output spec),
empty suggestion list (Python IndexError on [0]), and the no-suggestion
failure. -/
def propagateCore (op : OpOverload) (args : List DArg)
    (kwargs : List (String × DArg)) (op_to_rules : List (String × Rule))
    (enable_fallback : Bool) :
    Except String (OpSchema × Bool × Option OutputSharding) × Nat :=
  let op_schema := schemaOfCall op.func_schema args kwargs
  let op_key := op.key
  match lookupStr op_to_rules op_key with
  | none =>
    if ¬ enable_fallback then
      (Except.error ("Operator " ++ op_key ++ " does not have a DistributedTensor rule registered."), 0)
    else (Except.ok (op_schema, false, none), 0)
  | some sharding_prop_func =>
    match sharding_prop_func op_schema with
    | Except.error e =>
      (Except.error ("Sharding propagation failed on op " ++ op_key ++ ". Error: " ++ e), 1)
    | Except.ok output_sharding =>
      match output_sharding.output_spec with
      | some _ => (Except.ok (op_schema, false, some output_sharding), 1)
      | none =>
        match output_sharding.schema_suggestions with
        | some (target_schema :: _) =>
          match sharding_prop_func target_schema with
          | Except.error e => (Except.error e, 2)
          | Except.ok osh2 => (Except.ok (target_schema, true, some osh2), 2)
        | some [] => (Except.error ("IndexError: list index out of range"), 1)
        | none =>
          (Except.error ("Sharding propagation failed on op " ++ op_key ++ " Failed reason: "
            ++ (match output_sharding.failed_reason with
                | some msg => msg
                | none => "None")), 1)

/-- propagate_input_sharding from dispatch.py (result component). -/
def propagate_input_sharding (op : OpOverload) (args : List DArg)
    (kwargs : List (String × DArg)) (op_to_rules : List (String × Rule))
    (enable_fallback : Bool) :
    Except String (OpSchema × Bool × Option OutputSharding) :=
  (propagateCore op args kwargs op_to_rules enable_fallback).1

/-- Number of times propagate_input_sharding invokes the looked-up rule. -/
def propagateRuleCalls (op : OpOverload) (args : List DArg)
    (kwargs : List (String × DArg)) (op_to_rules : List (String × Rule))
    (enable_fallback : Bool) : Nat :=
  (propagateCore op args kwargs op_to_rules enable_fallback).2

/-- Read the descriptor out of a schema entry (Python would raise
AttributeError on a non-descriptor entry; unreachable in the dispatch flow
because the schema is built from the same argument tree). -/
def spec_of_schema_arg (sa : SchemaArg) : DTensorSpec :=
  match sa with
  | SchemaArg.spec s => s
  | SchemaArg.val _ => default

/-- Local-call form of a schema entry (non-tensor entries are taken from
the target schema, as pack_args_kwargs_with_local_tensor reuses the
flattened schema list). -/
def local_of_schema_arg (sa : SchemaArg) : LocalArg :=
  match sa with
  | SchemaArg.val v => LocalArg.lval v
  | SchemaArg.spec _ => LocalArg.lval Value.noneV

/-- pack_args_kwargs_with_local_tensor from dispatch.py on the positional
arguments: every DTensor leaf is (optionally, when redistribute is
signalled) redistributed to the descriptor at the same position of the
target schema and then replaced by its local shard; non-tensor leaves come
from the schema list. redistributeFn abstracts redistribute_dtensor (an
external collaborator). -/
def pack_args_with_local_tensor
    (redistributeFn : DTensor → DeviceMesh → List Placement → DTensor)
    (args : List DArg) (args_schema : List SchemaArg)
    (redistribute_with_schema : Bool) : List LocalArg :=
  List.zipWith
    (fun a sa =>
      match a with
      | DArg.dt t =>
        let t2 := if redistribute_with_schema then
            redistributeFn t (spec_of_schema_arg sa).mesh (spec_of_schema_arg sa).placements
          else t
        LocalArg.ltensor t2.local_tensor
      | DArg.val _ => local_of_schema_arg sa)
    args args_schema

/-- pack_args_kwargs_with_local_tensor on the keyword arguments. -/
def pack_kwargs_with_local_tensor
    (redistributeFn : DTensor → DeviceMesh → List Placement → DTensor)
    (kwargs : List (String × DArg)) (kwargs_schema : List (String × SchemaArg))
    (redistribute_with_schema : Bool) : List (String × LocalArg) :=
  List.zipWith
    (fun p q =>
      (q.1,
        match p.2 with
        | DArg.dt t =>
          let t2 := if redistribute_with_schema then
              redistributeFn t (spec_of_schema_arg q.2).mesh (spec_of_schema_arg q.2).placements
            else t
          LocalArg.ltensor t2.local_tensor
        | DArg.val _ => local_of_schema_arg q.2))
    kwargs kwargs_schema

/-- The out-variant resolution loop of operator_dispatch: walk the formal
arguments in schema declaration order; for each is-out formal, look its
name up in the keyword arguments (Python KeyError when absent, an attribute
error when the value is not a DTensor), assign it the next output spec
(Python IndexError when the specs run out), and collect it. -/
def resolveOutArgs : List FuncArg → List (String × DArg) → List DTensorSpec →
    Except String (List DTensor)
  | [], _, _ => Except.ok []
  | a :: rest, kwargs, specs =>
    if a.is_out then
      match lookupStr kwargs a.name with
      | none => Except.error ("KeyError: " ++ a.name)
      | some (DArg.val _) =>
        Except.error ("AttributeError: out argument " ++ a.name ++ " is not a DTensor")
      | some (DArg.dt t) =>
        match specs with
        | [] => Except.error ("IndexError: output spec index out of range")
        | s :: srest =>
          (resolveOutArgs rest kwargs srest).map fun l => { t with spec := s } :: l
    else resolveOutArgs rest kwargs specs

/-- The DTensor passed for an out formal argument (default when absent or
not a tensor); used to state what the out-variant branch returns. -/
def outTensor (kwargs : List (String × DArg)) (a : FuncArg) : DTensor :=
  match lookupStr kwargs a.name with
  | some (DArg.dt t) => t
  | _ => default

/-- operator_dispatch from dispatch.py: decomposition table shortcut,
custom-override shortcut, sharding propagation, local-tensor fallback when
no output sharding is available, packing with optional redistribution,
local execution, and the in-place / out-variant / default result
handling. -/
def operator_dispatch
    (redistributeFn : DTensor → DeviceMesh → List Placement → DTensor)
    (op : OpOverload) (args : List DArg) (kwargs : List (String × DArg))
    (op_to_rules : List (String × Rule))
    (custom_dispatch_ops : List (String × CustomFn))
    (enable_fallback : Bool) : Except String DispatchOut :=
  if op.key ∈ decompositionTableKeys then Except.ok (DispatchOut.delegated op.key)
  else
    match lookupStr custom_dispatch_ops op.key with
    | some custom => custom args kwargs
    | none =>
      match propagate_input_sharding op args kwargs op_to_rules enable_fallback with
      | Except.error e => Except.error e
      | Except.ok (target_schema, redistribute, maybe_sharding) =>
        match maybe_sharding with
        | none =>
          let tensor_args := args.map unwrap_local_tensor
          let tensor_kwargs := kwargs.map fun p => (p.1, unwrap_local_tensor p.2)
          let local_results := op.localImpl tensor_args tensor_kwargs
          match target_schema.args_spec with
          | [] => Except.error ("IndexError: args_spec is empty")
          | s0 :: _ => wrap local_results (some (OutputSpecType.one s0))
        | some output_sharding =>
          let local_tensor_args :=
            pack_args_with_local_tensor redistributeFn args target_schema.args_schema redistribute
          let local_tensor_kwargs :=
            pack_kwargs_with_local_tensor redistributeFn kwargs target_schema.kwargs_schema redistribute
          let local_results := op.localImpl local_tensor_args local_tensor_kwargs
          if target_schema.is_inplace then
            match args with
            | DArg.dt t0 :: _ =>
              match output_sharding.output_spec with
              | some (OutputSpecType.one s) =>
                Except.ok (DispatchOut.one { t0 with spec := s })
              | _ => Except.error ("inplace op without a single output spec")
            | _ => Except.error ("inplace op whose first argument is not a DTensor")
          else if target_schema.is_out_variant then
            let output_specs :=
              match output_sharding.output_spec with
              | some (OutputSpecType.one s) => [s]
              | some (OutputSpecType.many ss) => ss
              | none => []
            match resolveOutArgs target_schema.func_schema.arguments kwargs output_specs with
            | Except.error e => Except.error e
            | Except.ok out_dts =>
              if 1 ≤ out_dts.length then
                if 1 < out_dts.length then Except.ok (DispatchOut.tup out_dts)
                else Except.ok (DispatchOut.one (out_dts.getD 0 default))
              else Except.error ("out variant should have at least one out arg")
          else wrap local_results output_sharding.output_spec

/-- Identity redistribution, a trivial instance of the external
redistribute_dtensor collaborator for concrete evaluations. -/
def idRedistribute : DTensor → DeviceMesh → List Placement → DTensor :=
  fun t _ _ => t

/-- The output descriptor list carried by a rule result (empty when the
rule failed or resolved nothing). -/
def outputSpecsOf (e : Except String OutputSharding) : List DTensorSpec :=
  match e with
  | Except.ok ⟨some (OutputSpecType.one s), _, _⟩ => [s]
  | Except.ok ⟨some (OutputSpecType.many ss), _, _⟩ => ss
  | _ => []

/-- Concrete function schema for exercising the Propagation Driver. -/
def c1FuncSchema : FuncSchema := ⟨"aten::mm", "default", []⟩

/-- Concrete suggestion schema a rule can offer. -/
def c1SuggSchema : OpSchema := mkOpSchema c1FuncSchema [SchemaArg.val (Value.int 1)] []

/-- A rule that resolves nothing: on the original (empty-args) schema it
offers one suggestion, and on the suggestion it fails again with a reason
and no output spec. -/
def c1Rule : Rule := fun s =>
  if s.args_schema.isEmpty then Except.ok ⟨none, some [c1SuggSchema], none⟩
  else Except.ok ⟨none, none, some "no viable sharding"⟩

/-- Concrete operator for exercising the Propagation Driver. -/
def c1Op : OpOverload := ⟨"aten.mm.default", c1FuncSchema, fun _ _ => LocalRes.single []⟩

/-- A one-dimensional device mesh. -/
def c3Mesh : DeviceMesh := ⟨1, 0⟩

/-- Fully-Replicate input descriptor, shape [2, 2, 8, 8]. -/
def c3InputSpec : DTensorSpec :=
  ⟨c3Mesh, [Placement.replicate], ⟨[2, 2, 8, 8], [128, 64, 8, 1], "float32"⟩⟩

/-- Fully-Replicate weight descriptor, shape [4, 2, 3, 3]. -/
def c3WeightSpec : DTensorSpec :=
  ⟨c3Mesh, [Placement.replicate], ⟨[4, 2, 3, 3], [18, 9, 3, 1], "float32"⟩⟩

/-- Fully-Replicate grad-output descriptor, shape [2, 4, 8, 8]. -/
def c3GradOutSpec : DTensorSpec :=
  ⟨c3Mesh, [Placement.replicate], ⟨[2, 4, 8, 8], [256, 64, 8, 1], "float32"⟩⟩

/-- Concrete convolution_backward OpSchema with all-Replicate inputs. -/
def c3BackSchema : OpSchema :=
  mkOpSchema ⟨"aten::convolution_backward", "default", []⟩
    [SchemaArg.spec c3GradOutSpec, SchemaArg.spec c3InputSpec, SchemaArg.spec c3WeightSpec,
     SchemaArg.val (Value.intList [4]), SchemaArg.val (Value.intList [1, 1]),
     SchemaArg.val (Value.intList [1, 1]), SchemaArg.val (Value.intList [1, 1]),
     SchemaArg.val (Value.boolV false), SchemaArg.val (Value.intList [0, 0]),
     SchemaArg.val (Value.int 1), SchemaArg.val (Value.boolList [true, true, true])] []

/-- Concrete convolution OpSchema: input spatial size 8, kernel 3, stride 1,
padding 1, dilation 1 (the classic same convolution). -/
def c6Schema : OpSchema :=
  mkOpSchema ⟨"aten::convolution", "default", []⟩
    [SchemaArg.spec c3InputSpec, SchemaArg.spec c3WeightSpec, SchemaArg.val Value.noneV,
     SchemaArg.val (Value.intList [1, 1]), SchemaArg.val (Value.intList [1, 1]),
     SchemaArg.val (Value.intList [1, 1]), SchemaArg.val (Value.boolV false),
     SchemaArg.val (Value.intList [0, 0]), SchemaArg.val (Value.int 1)] []

/-- The output descriptor convolution_rules resolves for c6Schema. -/
def c6Out : DTensorSpec :=
  (outputSpecsOf (convolution_rules c6Schema)).getD 0 default

/-- Signature of an in-place operator (name ends in an underscore). -/
def c7FuncSchema : FuncSchema :=
  ⟨"aten::add_", "Tensor", [⟨"self", false⟩, ⟨"other", false⟩]⟩

/-- A Replicate descriptor for a one-dimensional tensor of two elements. -/
def c7Spec : DTensorSpec :=
  ⟨⟨1, 0⟩, [Placement.replicate], ⟨[2], [1], "float32"⟩⟩

/-- A distinct descriptor the rule propagates for the in-place output. -/
def c7OutSpec : DTensorSpec :=
  ⟨⟨1, 0⟩, [Placement.shard 0], ⟨[2], [1], "float32"⟩⟩

/-- A rule resolving c7OutSpec unconditionally. -/
def c7Rule : Rule := fun _ => Except.ok ⟨some (OutputSpecType.one c7OutSpec), none, none⟩

/-- The DTensor passed as the first (mutated) argument of the in-place op. -/
def c7T0 : DTensor := ⟨7, [1, 2], c7Spec⟩

/-- Concrete in-place operator overload. -/
def c7Op : OpOverload := ⟨"aten.add_.Tensor", c7FuncSchema, fun _ _ => LocalRes.single [2, 4]⟩

/-- Concrete operator with no registered sharding rule, for the fallback
path. -/
def c8Op : OpOverload :=
  ⟨"aten.relu.default", ⟨"aten::relu", "default", []⟩,
    fun la _ =>
      LocalRes.single
        (match la with
         | LocalArg.ltensor t :: _ => t.map fun x => max x 0
         | _ => [])⟩

/-- A DTensor argument for the fallback path. -/
def c8T0 : DTensor := ⟨3, [1, -2], c7Spec⟩

/-- Signature of an out-variant operator (overload name contains out) with
one declared out argument. -/
def c10FuncSchema : FuncSchema :=
  ⟨"aten::add", "out", [⟨"self", false⟩, ⟨"other", false⟩, ⟨"out", true⟩]⟩

/-- A rule resolving a single output descriptor for the out-variant op. -/
def c10Rule : Rule := fun _ => Except.ok ⟨some (OutputSpecType.one c7OutSpec), none, none⟩

/-- The DTensor passed positionally as self. -/
def c10TIn : DTensor := ⟨1, [5], c7Spec⟩

/-- The DTensor passed as the out keyword argument. -/
def c10TOut : DTensor := ⟨2, [0], c7Spec⟩

/-- Concrete out-variant operator overload. -/
def c10Op : OpOverload := ⟨"aten.add.out", c10FuncSchema, fun _ _ => LocalRes.single [9]⟩

theorem idx_cons_succ (a : Int) (l : List Int) (i : Nat) :
    idx (a :: l) (i + 1) = idx l i := rfl

theorem idx_oob (l : List Int) (i : Nat) (h : l.length ≤ i) : idx l i = 0 := by
  induction l generalizing i with
  | nil => rfl
  | cons a t ih =>
    cases i with
    | zero => simp only [List.length_cons] at h; omega
    | succ j =>
      rw [idx_cons_succ]
      exact ih j (by simp only [List.length_cons] at h; omega)

theorem idx_append_left (l l2 : List Int) (i : Nat) (h : i < l.length) :
    idx (l ++ l2) i = idx l i := by
  induction l generalizing i with
  | nil => simp at h
  | cons a t ih =>
    cases i with
    | zero => rfl
    | succ j =>
      rw [List.cons_append, idx_cons_succ, idx_cons_succ]
      exact ih j (by simp only [List.length_cons] at h; omega)

theorem idx_append_right (l l2 : List Int) (j : Nat) :
    idx (l ++ l2) (l.length + j) = idx l2 j := by
  induction l with
  | nil => simp only [List.nil_append, List.length_nil, Nat.zero_add]
  | cons a t ih =>
    have h1 : (a :: t).length + j = (t.length + j) + 1 := by
      simp only [List.length_cons]; omega
    rw [List.cons_append, h1, idx_cons_succ, ih]

theorem idx_append2 (l l2 : List Int) (m : Nat) :
    idx (l ++ l2) m = if m < l.length then idx l m else idx l2 (m - l.length) := by
  by_cases h : m < l.length
  · rw [if_pos h, idx_append_left l l2 m h]
  · rw [if_neg h]
    obtain ⟨j, rfl⟩ : ∃ j, m = l.length + j := ⟨m - l.length, by omega⟩
    rw [idx_append_right]
    congr 1
    omega

theorem idx_replicate (m i : Nat) : idx (List.replicate m (0 : Int)) i = 0 := by
  induction m generalizing i with
  | zero => rfl
  | succ a ih =>
    cases i with
    | zero => rfl
    | succ j => rw [List.replicate_succ, idx_cons_succ]; exact ih j

theorem idx_take (l : List Int) (m i : Nat) (h : i < m) :
    idx (l.take m) i = idx l i := by
  induction l generalizing m i with
  | nil => simp [List.take_nil]
  | cons a t ih =>
    cases m with
    | zero => omega
    | succ m2 =>
      cases i with
      | zero => rfl
      | succ j =>
        rw [List.take_succ_cons, idx_cons_succ, idx_cons_succ]
        exact ih m2 j (by omega)

theorem idx_drop (l : List Int) (m i : Nat) : idx (l.drop m) i = idx l (m + i) := by
  induction l generalizing m with
  | nil => simp [List.drop_nil, idx]
  | cons a t ih =>
    cases m with
    | zero => simp only [List.drop_zero, Nat.zero_add]
    | succ m2 =>
      have h1 : m2 + 1 + i = (m2 + i) + 1 := by omega
      rw [List.drop_succ_cons, h1, idx_cons_succ, ih]

theorem eq_of_idx (l l2 : List Int) (hlen : l.length = l2.length)
    (h : ∀ i, i < l.length → idx l i = idx l2 i) : l = l2 := by
  induction l generalizing l2 with
  | nil =>
    cases l2 with
    | nil => rfl
    | cons b t2 => simp at hlen
  | cons a t ih =>
    cases l2 with
    | nil => simp at hlen
    | cons b t2 =>
      have hab : a = b := h 0 (by simp)
      have ht : t = t2 := by
        refine ih t2 (by simpa using hlen) fun i hi => ?_
        have := h (i + 1) (by simp only [List.length_cons]; omega)
        rwa [idx_cons_succ, idx_cons_succ] at this
      rw [hab, ht]

theorem idx_map_range (f : Nat → Int) (L i : Nat) :
    idx ((List.range L).map f) i = if i < L then f i else 0 := by
  induction L with
  | zero =>
    simp only [List.range_zero, List.map_nil, Nat.not_lt_zero, if_false]
    rfl
  | succ L2 ih =>
    rw [List.range_succ, List.map_append, idx_append2]
    simp only [List.length_map, List.length_range]
    by_cases h : i < L2
    · rw [if_pos h, ih, if_pos h, if_pos (by omega)]
    · rw [if_neg h]
      by_cases h2 : i = L2
      · subst h2
        rw [Nat.sub_self, if_pos (Nat.lt_succ_self i)]
        rfl
      · have hoob : (List.map f [L2]).length ≤ i - L2 := by
          simp only [List.length_map, List.length_cons, List.length_nil]
          omega
        rw [if_neg (by omega), idx_oob _ _ hoob]

theorem sumRange_congr (f g : Nat → Int) (n : Nat)
    (h : ∀ t, t < n → f t = g t) : sumRange f n = sumRange g n := by
  induction n with
  | zero => rfl
  | succ m ih =>
    show sumRange f m + f m = sumRange g m + g m
    rw [ih (fun t ht => h t (by omega)), h m (by omega)]

theorem getD_mem {α : Type} (l : List α) (d : α) (r : Nat) (h : r < l.length) :
    l.getD r d ∈ l := by
  induction l generalizing r with
  | nil => simp at h
  | cons a t ih =>
    cases r with
    | zero => exact List.mem_cons_self a t
    | succ j =>
      exact List.mem_cons_of_mem a (ih j (by simp only [List.length_cons] at h; omega))

theorem flatten_length_const (shards : List (List Int)) (n : Nat)
    (hall : ∀ xs ∈ shards, xs.length = n) :
    shards.flatten.length = shards.length * n := by
  induction shards with
  | nil => simp
  | cons x rest ih =>
    have hx : x.length = n := hall x (List.mem_cons_self x rest)
    have hrest : ∀ xs ∈ rest, xs.length = n :=
      fun xs hxs => hall xs (List.mem_cons_of_mem x hxs)
    simp only [List.flatten_cons, List.length_append, List.length_cons, hx, ih hrest]
    ring

theorem idx_flatten (shards : List (List Int)) (n q j : Nat)
    (hall : ∀ xs ∈ shards, xs.length = n)
    (hq : q < shards.length) (hj : j < n) :
    idx shards.flatten (q * n + j) = idx (shards.getD q []) j := by
  induction shards generalizing q with
  | nil => simp at hq
  | cons x rest ih =>
    have hx : x.length = n := hall x (List.mem_cons_self x rest)
    have hrest : ∀ xs ∈ rest, xs.length = n :=
      fun xs hxs => hall xs (List.mem_cons_of_mem x hxs)
    cases q with
    | zero =>
      rw [List.flatten_cons, Nat.zero_mul, Nat.zero_add,
        idx_append_left _ _ j (by rw [hx]; exact hj)]
      rfl
    | succ q2 =>
      have h1 : (q2 + 1) * n + j = x.length + (q2 * n + j) := by
        rw [hx]; ring
      rw [List.flatten_cons, h1, idx_append_right]
      exact ih q2 hrest (by simp only [List.length_cons] at hq; omega)

theorem idx_zpad (p : Nat) (xs : List Int) (m : Nat) :
    idx (zpad p xs) m = if m < p then 0 else idx xs (m - p) := by
  unfold zpad
  by_cases hm : m < p
  · rw [if_pos hm,
      idx_append_left _ _ m (by simp only [List.length_append, List.length_replicate]; omega),
      idx_append_left _ _ m (by simp only [List.length_replicate]; omega),
      idx_replicate]
  · rw [if_neg hm, List.append_assoc]
    obtain ⟨j, rfl⟩ : ∃ j, m = p + j := ⟨m - p, by omega⟩
    have hpj : p + j - p = j := by omega
    rw [hpj]
    have h1 : p + j = (List.replicate p (0 : Int)).length + j := by
      simp only [List.length_replicate]
    rw [h1, idx_append_right, idx_append2]
    by_cases hj : j < xs.length
    · rw [if_pos hj]
    · rw [if_neg hj, idx_replicate, idx_oob _ _ (by omega)]

theorem conv1d_length (ker xs : List Int) (s p : Nat) :
    (conv1d ker xs s p).length = convOutLen xs.length ker.length s p := by
  simp [conv1d]

theorem idx_conv1d (ker xs : List Int) (s p i : Nat)
    (h : i < convOutLen xs.length ker.length s p) :
    idx (conv1d ker xs s p) i = convAt ker (zpad p xs) (i * s) := by
  rw [conv1d, idx_map_range, if_pos h]

theorem negSliceLast_eq_drop (xs : List Int) (d : Nat) (h : d ≠ 0) :
    negSliceLast xs d = xs.drop (xs.length - d) := by
  rw [negSliceLast, if_neg h]

theorem take_then_drop (l : List Int) (a b : Nat) :
    (l.take a).drop b = (l.drop b).take (a - b) := by
  apply eq_of_idx
  · rw [List.length_drop, List.length_take, List.length_take, List.length_drop]
    omega
  · intro i hi
    rw [List.length_drop, List.length_take] at hi
    rw [idx_drop, idx_take _ _ _ (by omega), idx_take _ _ _ (by omega), idx_drop]

theorem pred_mul_add (a n : Nat) (h : 1 ≤ a) : (a - 1) * n + n = a * n := by
  obtain ⟨b, rfl⟩ : ∃ b, a = b + 1 := ⟨a - 1, by omega⟩
  simp [Nat.succ_mul]

/-- Core slice comparison for stride-1 convolutions: when the padded input
windows of X starting at lo agree with the padded windows of G starting at
off, the corresponding output slices agree. -/
theorem conv_slice_core (ker X G : List Int) (p lo m off : Nat)
    (hm1 : lo + m ≤ convOutLen X.length ker.length 1 p)
    (hm2 : off + m ≤ convOutLen G.length ker.length 1 p)
    (hwin : ∀ u, u < m + (ker.length - 1) →
        idx (zpad p X) (lo + u) = idx (zpad p G) (off + u)) :
    ((conv1d ker X 1 p).drop lo).take m
      = ((conv1d ker G 1 p).drop off).take m := by
  apply eq_of_idx
  · rw [List.length_take, List.length_drop, List.length_take, List.length_drop,
      conv1d_length, conv1d_length]
    omega
  · intro i hi
    have hi2 : i < m := by
      rw [List.length_take, List.length_drop, conv1d_length] at hi
      omega
    rw [idx_take _ _ _ hi2, idx_drop, idx_take _ _ _ hi2, idx_drop,
      idx_conv1d _ _ _ _ _ (by omega), idx_conv1d _ _ _ _ _ (by omega),
      Nat.mul_one, Nat.mul_one]
    unfold convAt
    apply sumRange_congr
    intro t ht
    congr 1
    rw [show lo + i + t = lo + (i + t) from by omega,
      show off + i + t = off + (i + t) from by omega]
    exact hwin (i + t) (by omega)


theorem halo_rank0_abs (ker Bself Cnext G recvL : List Int) (n p L d1 d2 : Nat)
    (hd1def : d1 = (ker.length - 1) / 2) (hd2def : d2 = (ker.length - 1) - d1)
    (hBl : Bself.length = n) (hCl : Cnext.length = n) (hGl : G.length = L * n)
    (hL2 : 2 ≤ L) (hk3 : 3 ≤ ker.length) (hkd : ker.length / 2 ≤ n) (hp : 1 ≤ p)
    (hidxB : ∀ j, j < n → idx Bself j = idx G j)
    (hidxC : ∀ j, j < n → idx Cnext j = idx G (n + j)) :
    trimOutput
      (conv1d ker (reconstructInput Bself recvL (Cnext.take d2) 0 L) 1 p) p 0 L
    = ((conv1d ker G 1 p).drop 0).take (n + p - d1) := by
  have hd1 : 1 ≤ d1 := by omega
  have hd12 : d1 ≤ d2 := by omega
  have hd2n : d2 ≤ n := by omega
  have hS2 : 2 * n ≤ L * n := Nat.mul_le_mul_right n hL2
  have hClen : (Cnext.take d2).length = d2 := by
    rw [List.length_take, hCl]; omega
  have hrec : reconstructInput Bself recvL (Cnext.take d2) 0 L
      = Bself ++ Cnext.take d2 := by
    simp [reconstructInput]
  rw [hrec]
  have hXlen : (Bself ++ Cnext.take d2).length = n + d2 := by
    rw [List.length_append, hBl, hClen]
  have htrim : trimOutput (conv1d ker (Bself ++ Cnext.take d2) 1 p) p 0 L
      = ((conv1d ker (Bself ++ Cnext.take d2) 1 p).drop 0).take (n + p - d1) := by
    rw [trimOutput, if_pos rfl, List.drop_zero]
    congr 1
    rw [conv1d_length, hXlen]
    unfold convOutLen
    omega
  rw [htrim]
  apply conv_slice_core
  · rw [hXlen]; unfold convOutLen; omega
  · rw [hGl]; unfold convOutLen; omega
  · intro u hu
    simp only [Nat.zero_add]
    rw [idx_zpad, idx_zpad]
    by_cases hup : u < p
    · rw [if_pos hup, if_pos hup]
    · rw [if_neg hup, if_neg hup, idx_append2, hBl]
      rcases Nat.lt_or_ge (u - p) n with hmn | hmn
      · rw [if_pos hmn]
        exact hidxB (u - p) hmn
      · rw [if_neg (by omega), idx_take _ _ _ (by omega)]
        have h2 := hidxC (u - p - n) (by omega)
        rw [show n + (u - p - n) = u - p from by omega] at h2
        exact h2

theorem halo_rankLast_abs (ker Aprev Bself G recvR : List Int) (n p L d1 d2 : Nat)
    (hd1def : d1 = (ker.length - 1) / 2) (hd2def : d2 = (ker.length - 1) - d1)
    (hAl : Aprev.length = n) (hBl : Bself.length = n) (hGl : G.length = L * n)
    (hL2 : 2 ≤ L) (hk3 : 3 ≤ ker.length) (hkd : ker.length / 2 ≤ n) (hp : 1 ≤ p)
    (hidxA : ∀ j, j < n → idx Aprev j = idx G ((L - 2) * n + j))
    (hidxB : ∀ j, j < n → idx Bself j = idx G ((L - 1) * n + j)) :
    trimOutput
      (conv1d ker
        (reconstructInput Bself (negSliceLast Aprev d1) recvR (L - 1) L) 1 p)
      p (L - 1) L
    = ((conv1d ker G 1 p).drop ((L - 1) * n + p - d1)).take (n + p - d2) := by
  have hd1 : 1 ≤ d1 := by omega
  have hd12 : d1 ≤ d2 := by omega
  have hd2n : d2 ≤ n := by omega
  have hS2 : 2 * n ≤ L * n := Nat.mul_le_mul_right n hL2
  have e1 : (L - 1) * n + n = L * n := pred_mul_add L n (by omega)
  have e2 : (L - 2) * n + n = (L - 1) * n := by
    have := pred_mul_add (L - 1) n (by omega)
    rwa [show L - 1 - 1 = L - 2 from by omega] at this
  have hA : negSliceLast Aprev d1 = Aprev.drop (n - d1) := by
    rw [negSliceLast_eq_drop _ _ (by omega), hAl]
  rw [hA]
  have hAlen : (Aprev.drop (n - d1)).length = d1 := by
    rw [List.length_drop, hAl]; omega
  have hrec : reconstructInput Bself (Aprev.drop (n - d1)) recvR (L - 1) L
      = Aprev.drop (n - d1) ++ Bself := by
    rw [reconstructInput, if_neg (by omega), if_pos rfl]
  rw [hrec]
  have hXlen : (Aprev.drop (n - d1) ++ Bself).length = d1 + n := by
    rw [List.length_append, hAlen, hBl]
  have htrim : trimOutput (conv1d ker (Aprev.drop (n - d1) ++ Bself) 1 p) p (L - 1) L
      = ((conv1d ker (Aprev.drop (n - d1) ++ Bself) 1 p).drop p).take (n + p - d2) := by
    rw [trimOutput, if_neg (by omega), if_pos rfl,
      show n + p - d2 = ((conv1d ker (Aprev.drop (n - d1) ++ Bself) 1 p).drop p).length
        from by
          rw [List.length_drop, conv1d_length, hXlen]; unfold convOutLen; omega,
      List.take_length]
  rw [htrim]
  apply conv_slice_core
  · rw [hXlen]; unfold convOutLen; omega
  · rw [hGl]; unfold convOutLen; omega
  · intro u hu
    rw [idx_zpad, idx_zpad, if_neg (by omega), if_neg (by omega),
      show p + u - p = u from by omega, idx_append2, hAlen]
    rcases Nat.lt_or_ge u d1 with hm1 | hm1
    · rw [if_pos hm1, idx_drop]
      have h2 := hidxA (n - d1 + u) (by omega)
      rw [show (L - 2) * n + (n - d1 + u) = (L - 1) * n + p - d1 + u - p
        from by omega] at h2
      exact h2
    · rw [if_neg (by omega)]
      rcases Nat.lt_or_ge u (d1 + n) with hm2 | hm2
      · have h2 := hidxB (u - d1) (by omega)
        rw [show (L - 1) * n + (u - d1) = (L - 1) * n + p - d1 + u - p
          from by omega] at h2
        exact h2
      · rw [idx_oob Bself _ (by omega),
          idx_oob G _ (by omega)]

theorem halo_mid_abs (ker Aprev Bself Cnext G : List Int) (n p r L d1 d2 : Nat)
    (hd1def : d1 = (ker.length - 1) / 2) (hd2def : d2 = (ker.length - 1) - d1)
    (hAl : Aprev.length = n) (hBl : Bself.length = n) (hCl : Cnext.length = n)
    (hGl : G.length = L * n)
    (hk3 : 3 ≤ ker.length) (hkd : ker.length / 2 ≤ n) (hp : 1 ≤ p)
    (hr0 : 0 < r) (hrl : r + 1 < L)
    (hidxA : ∀ j, j < n → idx Aprev j = idx G ((r - 1) * n + j))
    (hidxB : ∀ j, j < n → idx Bself j = idx G (r * n + j))
    (hidxC : ∀ j, j < n → idx Cnext j = idx G ((r + 1) * n + j)) :
    trimOutput
      (conv1d ker
        (reconstructInput Bself (negSliceLast Aprev d1) (Cnext.take d2) r L) 1 p) p r L
    = ((conv1d ker G 1 p).drop (r * n + p - d1)).take n := by
  have hd1 : 1 ≤ d1 := by omega
  have hd12 : d1 ≤ d2 := by omega
  have hd2n : d2 ≤ n := by omega
  have e1 : (r - 1) * n + n = r * n := pred_mul_add r n (by omega)
  have e2 : (r + 1) * n = r * n + n := Nat.succ_mul r n
  have e3 : (r + 2) * n ≤ L * n := Nat.mul_le_mul_right n (by omega)
  have e4 : (r + 2) * n = r * n + 2 * n := by ring
  have hA : negSliceLast Aprev d1 = Aprev.drop (n - d1) := by
    rw [negSliceLast_eq_drop _ _ (by omega), hAl]
  rw [hA]
  have hAlen : (Aprev.drop (n - d1)).length = d1 := by
    rw [List.length_drop, hAl]; omega
  have hClen : (Cnext.take d2).length = d2 := by
    rw [List.length_take, hCl]; omega
  have hABlen : (Aprev.drop (n - d1) ++ Bself).length = d1 + n := by
    rw [List.length_append, hAlen, hBl]
  have hrec : reconstructInput Bself (Aprev.drop (n - d1)) (Cnext.take d2) r L
      = Aprev.drop (n - d1) ++ Bself ++ Cnext.take d2 := by
    rw [reconstructInput, if_neg (by omega), if_neg (by omega)]
  rw [hrec]
  have hXlen : (Aprev.drop (n - d1) ++ Bself ++ Cnext.take d2).length
      = d1 + n + d2 := by
    rw [List.length_append, hABlen, hClen]
  have htrim : trimOutput
      (conv1d ker (Aprev.drop (n - d1) ++ Bself ++ Cnext.take d2) 1 p) p r L
      = ((conv1d ker (Aprev.drop (n - d1) ++ Bself ++ Cnext.take d2) 1 p).drop p).take n := by
    rw [trimOutput, if_neg (by omega), if_neg (by omega), take_then_drop]
    congr 1
    rw [conv1d_length, hXlen]
    unfold convOutLen
    omega
  rw [htrim]
  apply conv_slice_core
  · rw [hXlen]; unfold convOutLen; omega
  · rw [hGl]; unfold convOutLen; omega
  · intro u hu
    rw [idx_zpad, idx_zpad, if_neg (by omega), if_neg (by omega),
      show p + u - p = u from by omega, idx_append2, idx_append2, hABlen, hAlen]
    rcases Nat.lt_or_ge u d1 with hm1 | hm1
    · rw [if_pos (by omega), if_pos hm1, idx_drop]
      have h2 := hidxA (n - d1 + u) (by omega)
      rw [show (r - 1) * n + (n - d1 + u) = r * n + p - d1 + u - p
        from by omega] at h2
      exact h2
    · rcases Nat.lt_or_ge u (d1 + n) with hm2 | hm2
      · rw [if_pos (by omega), if_neg (by omega)]
        have h2 := hidxB (u - d1) (by omega)
        rw [show r * n + (u - d1) = r * n + p - d1 + u - p from by omega] at h2
        exact h2
      · rw [if_neg (by omega), idx_take _ _ _ (by omega)]
        have h2 := hidxC (u - (d1 + n)) (by omega)
        rw [show (r + 1) * n + (u - (d1 + n)) = r * n + p - d1 + u - p
          from by omega] at h2
        exact h2

theorem zpad_zero (xs : List Int) : zpad 0 xs = xs := by
  simp [zpad]

theorem tpConvSim_unsupported (shards : List (List Int)) (ker : List Int)
    (stride p dil r : Nat) (e : String)
    (hsup : isSupportedW (shards.getD r []).length ker.length stride p dil
      = Except.error e) :
    tpConvSim shards ker stride p dil r = (Except.error e, []) := by
  simp only [tpConvSim, hsup]

theorem tpConvSim_local (shards : List (List Int)) (ker : List Int)
    (stride dil r : Nat) (b : Bool)
    (hsup : isSupportedW (shards.getD r []).length ker.length stride 0 dil
      = Except.ok b) :
    tpConvSim shards ker stride 0 dil r
      = (Except.ok (conv1d ker (shards.getD r []) stride 0), []) := by
  simp only [tpConvSim, hsup]
  rw [if_pos (show ¬ requiresDataExchangeW 0 = true from by decide)]

theorem tpConvSim_exchange (shards : List (List Int)) (ker : List Int)
    (stride p dil r : Nat) (b : Bool)
    (hsup : isSupportedW (shards.getD r []).length ker.length stride p dil
      = Except.ok b)
    (hp : p ≠ 0) :
    tpConvSim shards ker stride p dil r =
      (Except.ok (trimOutput
        (conv1d ker
          (reconstructInput (shards.getD r [])
            (negSliceLast (shards.getD ((r + shards.length - 1) % shards.length) [])
              ((ker.length - 1) / 2))
            ((shards.getD ((r + 1) % shards.length) []).take
              ((ker.length - 1) - (ker.length - 1) / 2))
            r shards.length) stride p) p r shards.length),
       [⟨P2PKind.isend, negSliceLast (shards.getD r []) ((ker.length - 1) / 2),
          (r + 1) % shards.length⟩,
        ⟨P2PKind.isend, (shards.getD r []).take ((ker.length - 1) - (ker.length - 1) / 2),
          (r + shards.length - 1) % shards.length⟩,
        ⟨P2PKind.irecv,
          List.replicate (negSliceLast (shards.getD r []) ((ker.length - 1) / 2)).length 0,
          (r + shards.length - 1) % shards.length⟩,
        ⟨P2PKind.irecv,
          List.replicate ((shards.getD r []).take ((ker.length - 1) - (ker.length - 1) / 2)).length 0,
          (r + 1) % shards.length⟩]) := by
  have hreq : requiresDataExchangeW p = true := by
    simp [requiresDataExchangeW]
    exact hp
  simp only [tpConvSim, hsup, hreq, not_true, if_false]

theorem halo_nopad_abs (ker Bself G : List Int) (n r L m : Nat)
    (hBl : Bself.length = n) (hGl : G.length = L * n)
    (hrL : r < L) (hk1 : 1 ≤ ker.length) (hn1 : 1 ≤ n)
    (hm : n = ker.length * m)
    (hidxB : ∀ j, j < n → idx Bself j = idx G (r * n + j)) :
    conv1d ker Bself ker.length 0
      = ((conv1d ker G ker.length 0).drop (r * m)).take m := by
  have hm1 : 1 ≤ m := by
    rcases Nat.eq_zero_or_pos m with h0 | h1
    · rw [h0, Nat.mul_zero] at hm; omega
    · exact h1
  have e5 : ker.length * m - ker.length = ker.length * (m - 1) := by
    obtain ⟨m2, rfl⟩ : ∃ m2, m = m2 + 1 := ⟨m - 1, by omega⟩
    rw [Nat.mul_succ]
    simp
  have e6 : L * n = ker.length * (L * m) := by rw [hm]; ring
  have hLm1 : 1 ≤ L * m := Nat.one_le_iff_ne_zero.mpr (by
    have := Nat.mul_le_mul (show 1 ≤ L from by omega) hm1
    omega)
  have e7 : L * n - ker.length = ker.length * (L * m - 1) := by
    obtain ⟨q, hq⟩ : ∃ q, L * m = q + 1 := ⟨L * m - 1, by omega⟩
    rw [e6, hq, Nat.mul_succ]
    simp
  have hlenB : convOutLen n ker.length ker.length 0 = m := by
    unfold convOutLen
    rw [show n + 2 * 0 - (ker.length - 1) - 1 = n - ker.length from by omega,
      hm, e5, Nat.mul_div_cancel_left _ (by omega : 0 < ker.length)]
    omega
  have hlenG : convOutLen (L * n) ker.length ker.length 0 = L * m := by
    unfold convOutLen
    rw [show L * n + 2 * 0 - (ker.length - 1) - 1 = L * n - ker.length from by
        have : ker.length ≤ L * n := by
          rw [e6]
          have := Nat.mul_le_mul_left ker.length hLm1
          omega
        omega,
      e7, Nat.mul_div_cancel_left _ (by omega : 0 < ker.length)]
    omega
  have erm : (r + 1) * m ≤ L * m := Nat.mul_le_mul_right m (by omega)
  have erm2 : (r + 1) * m = r * m + m := Nat.succ_mul r m
  apply eq_of_idx
  · rw [conv1d_length, List.length_take, List.length_drop, conv1d_length,
      hBl, hGl, hlenB, hlenG]
    omega
  · intro i hi
    have hi2 : i < m := by
      rw [conv1d_length, hBl, hlenB] at hi
      exact hi
    rw [idx_take _ _ _ hi2, idx_drop,
      idx_conv1d _ _ _ _ _ (by rw [hBl, hlenB]; omega),
      idx_conv1d _ _ _ _ _ (by rw [hGl, hlenG]; omega),
      zpad_zero, zpad_zero]
    unfold convAt
    apply sumRange_congr
    intro t ht
    congr 1
    have f1 : i * ker.length + ker.length ≤ m * ker.length := by
      have := Nat.mul_le_mul_right ker.length (show i + 1 ≤ m from by omega)
      rwa [Nat.succ_mul] at this
    have f2 : m * ker.length = n := by rw [hm]; ring
    have h2 := hidxB (i * ker.length + t) (by omega)
    rw [show r * n + (i * ker.length + t) = (r * m + i) * ker.length + t from by
      rw [hm]; ring] at h2
    exact h2

theorem isSupportedW_pad_ok (n k p : Nat) (hp : p ≠ 0) (hkd : k / 2 ≤ n) :
    isSupportedW n k 1 p 1 = Except.ok true := by
  unfold isSupportedW
  rw [if_neg (show ¬ ((1 : Nat) ≠ 1) from by omega), if_pos hp,
    if_neg (show ¬ ((1 : Nat) ≠ 1) from by omega),
    if_neg (show ¬ (k / 2 > n) from by omega)]

theorem isSupportedW_nopad_ok (n k : Nat) (hdvd : n % k = 0) :
    isSupportedW n k k 0 1 = Except.ok true := by
  unfold isSupportedW
  rw [if_neg (show ¬ ((1 : Nat) ≠ 1) from by omega),
    if_neg (show ¬ ((0 : Nat) ≠ 0) from by omega),
    if_neg (show ¬ ¬ (n % k = 0 ∧ k = k) from by simp [hdvd])]

/-- Claim C2 (amended). For world size 2 or 4, a kernel-row input sharded
evenly along the last spatial axis, and parameters accepted by
_is_supported with, in the padded case, kernel width at least 3 (both halo
widths non-empty), the value tp_convolution computes on rank r is exactly
the corresponding contiguous shard of the oracle: gather the shards, run
the plain local convolution on the full row, and re-shard the output
(shardOutOff / shardOutLen give the split the per-rank output sizes
induce). Integer arithmetic makes the match exact, hence within any
floating-point tolerance. -/
theorem c2_amended_halo_oracle
    (shards : List (List Int)) (ker : List Int) (n stride p dil r : Nat)
    (hws : shards.length = 2 ∨ shards.length = 4)
    (hall : ∀ xs ∈ shards, xs.length = n)
    (hr : r < shards.length)
    (hdil : dil = 1)
    (hn1 : 1 ≤ n)
    (hpad : p ≠ 0 → stride = 1 ∧ ker.length / 2 ≤ n ∧ 3 ≤ ker.length)
    (hnopad : p = 0 → stride = ker.length ∧ n % ker.length = 0) :
    (tpConvSim shards ker stride p dil r).1 =
      Except.ok (((conv1d ker shards.flatten stride p).drop
          (shardOutOff n ker.length stride p shards.length r)).take
        (shardOutLen n ker.length stride p shards.length r)) := by
  have hL2 : 2 ≤ shards.length := by rcases hws with h | h <;> omega
  have hrlen : (shards.getD r []).length = n := hall _ (getD_mem _ _ _ hr)
  have hflat : shards.flatten.length = shards.length * n :=
    flatten_length_const shards n hall
  subst hdil
  by_cases hp0 : p = 0
  · obtain ⟨hst, hdvd⟩ := hnopad hp0
    subst hp0
    subst hst
    have hk1 : 1 ≤ ker.length := by
      rcases Nat.eq_zero_or_pos ker.length with h0 | h1
      · rw [h0, Nat.mod_zero] at hdvd; omega
      · exact h1
    have hsup : isSupportedW (shards.getD r []).length ker.length ker.length 0 1
        = Except.ok true := by
      rw [hrlen]; exact isSupportedW_nopad_ok n ker.length hdvd
    rw [tpConvSim_local shards ker ker.length 1 r true hsup]
    exact congrArg Except.ok
      (halo_nopad_abs ker (shards.getD r []) shards.flatten n r shards.length
        (n / ker.length) hrlen hflat hr hk1 hn1
        (Nat.mul_div_cancel' (Nat.dvd_of_mod_eq_zero hdvd)).symm
        (fun j hj => (idx_flatten shards n r j hall hr hj).symm))
  · obtain ⟨hst, hkd, hk3⟩ := hpad hp0
    subst hst
    have hsup : isSupportedW (shards.getD r []).length ker.length 1 p 1
        = Except.ok true := by
      rw [hrlen]; exact isSupportedW_pad_ok n ker.length p hp0 hkd
    rw [tpConvSim_exchange shards ker 1 p 1 r true hsup hp0]
    by_cases hr0 : r = 0
    · subst hr0
      rw [show (0 + 1) % shards.length = 1 from by
        rw [Nat.zero_add, Nat.mod_eq_of_lt (by omega)]]
      simp only [shardOutOff, shardOutLen, if_neg hp0, if_pos rfl]
      exact congrArg Except.ok
        (halo_rank0_abs ker (shards.getD 0 []) (shards.getD 1 []) shards.flatten
          (negSliceLast (shards.getD ((0 + shards.length - 1) % shards.length) [])
            ((ker.length - 1) / 2))
          n p shards.length ((ker.length - 1) / 2)
          ((ker.length - 1) - (ker.length - 1) / 2) rfl rfl
          (hall _ (getD_mem _ _ _ (by omega)))
          (hall _ (getD_mem _ _ _ (by omega))) hflat hL2 hk3 hkd (by omega)
          (fun j hj => by
            have h := idx_flatten shards n 0 j hall (by omega) hj
            rw [Nat.zero_mul, Nat.zero_add] at h
            exact h.symm)
          (fun j hj => by
            have h := idx_flatten shards n 1 j hall (by omega) hj
            rw [Nat.one_mul] at h
            exact h.symm))
    · by_cases hrL : r = shards.length - 1
      · subst hrL
        rw [show (shards.length - 1 + 1) % shards.length = 0 from by
          rw [show shards.length - 1 + 1 = shards.length from by omega, Nat.mod_self],
          show (shards.length - 1 + shards.length - 1) % shards.length
              = shards.length - 2 from by
            rw [show shards.length - 1 + shards.length - 1
                = shards.length + (shards.length - 2) from by omega,
              Nat.add_mod_left, Nat.mod_eq_of_lt (by omega)]]
        simp only [shardOutOff, shardOutLen, if_neg hp0,
          if_neg (show ¬ (shards.length - 1 = 0) from by omega), if_pos rfl]
        exact congrArg Except.ok
          (halo_rankLast_abs ker (shards.getD (shards.length - 2) [])
            (shards.getD (shards.length - 1) []) shards.flatten
            ((shards.getD 0 []).take ((ker.length - 1) - (ker.length - 1) / 2))
            n p shards.length ((ker.length - 1) / 2)
            ((ker.length - 1) - (ker.length - 1) / 2) rfl rfl
            (hall _ (getD_mem _ _ _ (by omega)))
            (hall _ (getD_mem _ _ _ (by omega))) hflat hL2 hk3 hkd (by omega)
            (fun j hj => (idx_flatten shards n (shards.length - 2) j hall (by omega) hj).symm)
            (fun j hj => (idx_flatten shards n (shards.length - 1) j hall (by omega) hj).symm))
      · rw [show (r + shards.length - 1) % shards.length = r - 1 from by
          rw [show r + shards.length - 1 = shards.length + (r - 1) from by omega,
            Nat.add_mod_left, Nat.mod_eq_of_lt (by omega)],
          show (r + 1) % shards.length = r + 1 from Nat.mod_eq_of_lt (by omega)]
        simp only [shardOutOff, shardOutLen, if_neg hp0, if_neg hr0, if_neg hrL]
        exact congrArg Except.ok
          (halo_mid_abs ker (shards.getD (r - 1) []) (shards.getD r [])
            (shards.getD (r + 1) []) shards.flatten n p r shards.length
            ((ker.length - 1) / 2) ((ker.length - 1) - (ker.length - 1) / 2) rfl rfl
            (hall _ (getD_mem _ _ _ (by omega))) hrlen
            (hall _ (getD_mem _ _ _ (by omega))) hflat hk3 hkd (by omega)
            (by omega) (by omega)
            (fun j hj => (idx_flatten shards n (r - 1) j hall (by omega) hj).symm)
            (fun j hj => (idx_flatten shards n r j hall (by omega) hj).symm)
            (fun j hj => (idx_flatten shards n (r + 1) j hall (by omega) hj).symm))

/-- Claim C2 counterexample: kernel width 1 (so d1 = 0) with padding 1 is
accepted by _is_supported, but the Python slice in[..., -0:] ships the
whole local tensor instead of an empty halo: on world size 2 the two rank
outputs have lengths 2 and 3 while the oracle convolution output has
length 4, so no re-sharding of the oracle can match the per-rank results,
refuting the claim as stated over all _is_supported inputs. -/
theorem c2_counterexample :
    isSupportedW 1 1 1 1 1 = Except.ok true
    ∧ (tpConvSim [[1], [2]] [1] 1 1 1 0).1 = Except.ok [0, 1]
    ∧ (tpConvSim [[1], [2]] [1] 1 1 1 1).1 = Except.ok [1, 2, 0]
    ∧ conv1d [1] (([[1], [2]] : List (List Int)).flatten) 1 1 = [0, 1, 2, 0] := by
  decide

/-- Claim C2 witness: world size 2, local width 2, kernel [1, 1, 1],
stride 1, padding 1, dilation 1 on rank 0. -/
theorem c2_amended_witness :
    (([[1, 2], [3, 4]] : List (List Int)).length = 2
      ∨ ([[1, 2], [3, 4]] : List (List Int)).length = 4)
    ∧ (∀ xs ∈ ([[1, 2], [3, 4]] : List (List Int)), xs.length = 2)
    ∧ 0 < ([[1, 2], [3, 4]] : List (List Int)).length
    ∧ (1 : Nat) = 1
    ∧ 1 ≤ 2
    ∧ ((1 : Nat) ≠ 0 → (1 : Nat) = 1 ∧ ([1, 1, 1] : List Int).length / 2 ≤ 2
        ∧ 3 ≤ ([1, 1, 1] : List Int).length)
    ∧ ((1 : Nat) = 0 → (1 : Nat) = ([1, 1, 1] : List Int).length
        ∧ 2 % ([1, 1, 1] : List Int).length = 0)
    ∧ (tpConvSim [[1, 2], [3, 4]] [1, 1, 1] 1 1 1 0).1 =
        Except.ok (((conv1d [1, 1, 1] ([[1, 2], [3, 4]] : List (List Int)).flatten 1 1).drop
            (shardOutOff 2 3 1 1 2 0)).take (shardOutLen 2 3 1 1 2 0)) :=
  ⟨by decide, by decide, by decide, rfl, by decide, by decide, by decide,
    c2_amended_halo_oracle [[1, 2], [3, 4]] [1, 1, 1] 2 1 1 1 0
      (by decide) (by decide) (by decide) rfl (by decide) (by decide) (by decide)⟩

/-- Claim C4 counterexample: with world size 1 but padding 1 (a combination
_is_supported accepts), tp_convolution still takes the exchange path: rank 0
receives its own leading column as a fake right halo, posts four P2P
operations addressed to itself, and returns a result that differs from the
plain local convolution, refuting the claim as stated. -/
theorem c4_counterexample :
    isSupportedW (([[1, 0, 0]] : List (List Int)).getD 0 []).length
      ([1, 1, 1] : List Int).length 1 1 1 = Except.ok true
    ∧ (tpConvSim [[1, 0, 0]] [1, 1, 1] 1 1 1 0).1 = Except.ok [1, 1, 1]
    ∧ conv1d [1, 1, 1] [1, 0, 0] 1 1 = [1, 1, 0]
    ∧ (tpConvSim [[1, 0, 0]] [1, 1, 1] 1 1 1 0).2 ≠ [] := by
  decide

/-- Claim C4 (amended): with world size 1 and zero padding,
_requires_data_exchange is false, tp_convolution posts no point-to-point
operation (this holds whether or not the support check passes, since the
check precedes all communication), and when the support check passes the
result is bit-identical to the plain local convolution of the local
tensor. -/
theorem c4_amended_world_size_one (shards : List (List Int)) (ker : List Int)
    (stride dil : Nat)
    (h1 : shards.length = 1) :
    (tpConvSim shards ker stride 0 dil 0).2 = []
    ∧ requiresDataExchangeW 0 = false
    ∧ (isSupportedW (shards.getD 0 []).length ker.length stride 0 dil
        = Except.ok true →
        (tpConvSim shards ker stride 0 dil 0).1
          = Except.ok (conv1d ker (shards.getD 0 []) stride 0)) := by
  refine ⟨?_, rfl, ?_⟩
  · rcases hh : isSupportedW (shards.getD 0 []).length ker.length stride 0 dil
      with e | b
    · rw [tpConvSim_unsupported shards ker stride 0 dil 0 e hh]
    · rw [tpConvSim_local shards ker stride dil 0 b hh]
  · intro hsup
    rw [tpConvSim_local shards ker stride dil 0 true hsup]

/-- Claim C4 witness: a single rank with a supported zero-padding
configuration (local width 2, kernel width 2, stride 2). -/
theorem c4_amended_witness :
    ([[1, 2]] : List (List Int)).length = 1
    ∧ ((tpConvSim [[1, 2]] [1, 1] 2 0 1 0).2 = []
      ∧ requiresDataExchangeW 0 = false
      ∧ (isSupportedW (([[1, 2]] : List (List Int)).getD 0 []).length
          ([1, 1] : List Int).length 2 0 1 = Except.ok true →
          (tpConvSim [[1, 2]] [1, 1] 2 0 1 0).1
            = Except.ok (conv1d [1, 1] (([[1, 2]] : List (List Int)).getD 0 []) 2 0))) :=
  ⟨by decide, c4_amended_world_size_one [[1, 2]] [1, 1] 2 1 (by decide)⟩

theorem isSupportedW_cases (n k s p d : Nat) (hs : p = 0 → 1 ≤ s) :
    (isSupportedW n k s p d).isOk = true ↔
      ¬ (d ≠ 1 ∨ (p ≠ 0 ∧ s ≠ 1) ∨ (p ≠ 0 ∧ k / 2 > n)
        ∨ (p = 0 ∧ ¬ (n % s = 0 ∧ s = k))) := by
  unfold isSupportedW
  split_ifs with h1 h2 h3 h4 h5
  · simp [Except.isOk, Except.toBool, h1]
  · simp [Except.isOk, Except.toBool, h2, h3]
  · simp [Except.isOk, Except.toBool, h2, h4]
  · simp [Except.isOk, Except.toBool, h1, h2, h3, h4]
  · have hp0 : p = 0 := by omega
    obtain ⟨ha, hb⟩ := h5
    subst hb
    simp [Except.isOk, Except.toBool, h1, hp0, ha]
  · have hp0 : p = 0 := by omega
    simp [Except.isOk, Except.toBool, hp0, h5]

/-- Claim C5: _is_supported fails with a RuntimeError carrying the exact
source message precisely when a precondition is violated: dilation not 1;
padding non-zero with stride not 1; padding non-zero with half the kernel
width exceeding the local spatial extent; padding zero without local extent
divisible by stride and stride equal to the kernel width. Furthermore
tp_convolution called with W dilation 2 fails with the Dilation message and
posts no point-to-point operation. The hypothesis excludes stride 0 with
padding 0, where Python raises ZeroDivisionError instead of the
RuntimeError. -/
theorem c5_is_supported_errors (n k s p d : Nat) (hz : p = 0 → 1 ≤ s) :
    ((isSupportedW n k s p d).isOk = true ↔
      ¬ (d ≠ 1 ∨ (p ≠ 0 ∧ s ≠ 1) ∨ (p ≠ 0 ∧ k / 2 > n) ∨
         (p = 0 ∧ ¬ (n % s = 0 ∧ s = k))))
    ∧ (d ≠ 1 →
        isSupportedW n k s p d =
          Except.error ("Dilation must be 1 for tensor parallel convolution."))
    ∧ (d = 1 → p ≠ 0 → s ≠ 1 →
        isSupportedW n k s p d =
          Except.error ("Stride must be 1 when there is padding for tensor parallel convolution."))
    ∧ (d = 1 → p ≠ 0 → s = 1 → k / 2 > n →
        isSupportedW n k s p d =
          Except.error ("kernel_size[3] // 2 should be less than or equal to input_size[3] for tensor parallel convolution."))
    ∧ (d = 1 → p = 0 → ¬ (n % s = 0 ∧ s = k) →
        isSupportedW n k s p d =
          Except.error ("It requires that input_size[3] is divisible by stride[1] and stride[1] equals kernel_size[3] when there is padding for tensor parallel convolution."))
    ∧ (∀ (input_size kernel_size stride padding dilation : List Nat),
        input_size.getD 3 0 = n → kernel_size.getD 3 0 = k →
        stride.getD 1 0 = s → padding.getD 1 0 = p → dilation.getD 1 0 = d →
        is_supported input_size kernel_size stride padding dilation =
          isSupportedW n k s p d)
    ∧ (∀ (shards : List (List Int)) (ker : List Int) (stride2 p2 r : Nat),
        tpConvSim shards ker stride2 p2 2 r =
          (Except.error ("Dilation must be 1 for tensor parallel convolution."), [])) := by
  refine ⟨isSupportedW_cases n k s p d hz, ?_, ?_, ?_, ?_, ?_, ?_⟩
  · intro hd
    simp [isSupportedW, hd]
  · intro hd hp hs1
    simp [isSupportedW, hd, hp, hs1]
  · intro hd hp hs1 hk
    subst hs1
    simp [isSupportedW, hd, hp, hk]
  · intro hd hp hcond
    subst hp
    simp only [isSupportedW, hd]
    simp [hcond]
  · intro i2 k2 s2 p2 d2 h1 h2 h3 h4 h5
    rw [is_supported, h1, h2, h3, h4, h5]
  · intro shards ker stride2 p2 r
    exact tpConvSim_unsupported shards ker stride2 p2 2 r _ (by simp [isSupportedW])

/-- Witness for C5 at n = 6, k = 3, s = 3, p = 0, d = 1. -/
theorem c5_witness :
    ((0 : Nat) = 0 → 1 ≤ 3) ∧
    (((isSupportedW 6 3 3 0 1).isOk = true ↔
      ¬ ((1 : Nat) ≠ 1 ∨ ((0 : Nat) ≠ 0 ∧ (3 : Nat) ≠ 1) ∨
         ((0 : Nat) ≠ 0 ∧ 3 / 2 > 6) ∨
         ((0 : Nat) = 0 ∧ ¬ (6 % 3 = 0 ∧ 3 = 3))))
    ∧ ((1 : Nat) ≠ 1 →
        isSupportedW 6 3 3 0 1 =
          Except.error ("Dilation must be 1 for tensor parallel convolution."))
    ∧ ((1 : Nat) = 1 → (0 : Nat) ≠ 0 → (3 : Nat) ≠ 1 →
        isSupportedW 6 3 3 0 1 =
          Except.error ("Stride must be 1 when there is padding for tensor parallel convolution."))
    ∧ ((1 : Nat) = 1 → (0 : Nat) ≠ 0 → (3 : Nat) = 1 → 3 / 2 > 6 →
        isSupportedW 6 3 3 0 1 =
          Except.error ("kernel_size[3] // 2 should be less than or equal to input_size[3] for tensor parallel convolution."))
    ∧ ((1 : Nat) = 1 → (0 : Nat) = 0 → ¬ (6 % 3 = 0 ∧ 3 = 3) →
        isSupportedW 6 3 3 0 1 =
          Except.error ("It requires that input_size[3] is divisible by stride[1] and stride[1] equals kernel_size[3] when there is padding for tensor parallel convolution."))
    ∧ (∀ (input_size kernel_size stride padding dilation : List Nat),
        input_size.getD 3 0 = 6 → kernel_size.getD 3 0 = 3 →
        stride.getD 1 0 = 3 → padding.getD 1 0 = 0 → dilation.getD 1 0 = 1 →
        is_supported input_size kernel_size stride padding dilation =
          isSupportedW 6 3 3 0 1)
    ∧ (∀ (shards : List (List Int)) (ker : List Int) (stride2 p2 r : Nat),
        tpConvSim shards ker stride2 p2 2 r =
          (Except.error ("Dilation must be 1 for tensor parallel convolution."), []))) :=
  ⟨by decide, c5_is_supported_errors 6 3 3 0 1 (by decide)⟩

/-- Claim C1 counterexample: when the single retried suggestion also yields
no output spec, propagate_input_sharding does not fail: it returns the
suggested schema with the redistribute flag set and the unresolved
OutputSharding (output_spec none, only a failed_reason) as a successful
result, and the rule was invoked exactly twice. -/
theorem c1_counterexample :
    propagate_input_sharding c1Op [] [] [("aten.mm.default", c1Rule)] false =
      Except.ok (c1SuggSchema, true,
        some ⟨none, none, some ("no viable sharding")⟩) ∧
    propagateRuleCalls c1Op [] [] [("aten.mm.default", c1Rule)] false = 2 :=
  ⟨rfl, rfl⟩

/-- Claim C1 (amended): the Propagation Driver invokes the looked-up rule at
most twice for any dispatch, and when the first invocation resolves no
output spec but offers a non-empty suggestion list and the retried first
suggestion returns without raising, the driver returns that suggested
schema with the redistribute flag and the retried OutputSharding as a
successful result - even when the retry also resolved no output spec. It
does not loop, but neither does it fail in that case. -/
theorem c1_amended_single_retry (op : OpOverload) (args : List DArg)
    (kwargs : List (String × DArg)) (rules : List (String × Rule)) (fb : Bool)
    (rule : Rule) (osh1 osh2 : OutputSharding) (t : OpSchema) (rest : List OpSchema)
    (hlook : lookupStr rules op.key = some rule)
    (h1 : rule (schemaOfCall op.func_schema args kwargs) = Except.ok osh1)
    (hspec : osh1.output_spec = none)
    (hsugg : osh1.schema_suggestions = some (t :: rest))
    (h2 : rule t = Except.ok osh2) :
    (∀ (op2 : OpOverload) (args2 : List DArg) (kwargs2 : List (String × DArg))
       (rules2 : List (String × Rule)) (fb2 : Bool),
       propagateRuleCalls op2 args2 kwargs2 rules2 fb2 ≤ 2) ∧
    propagate_input_sharding op args kwargs rules fb =
      Except.ok (t, true, some osh2) ∧
    propagateRuleCalls op args kwargs rules fb = 2 := by
  refine ⟨?_, ?_, ?_⟩
  · intro op2 args2 kwargs2 rules2 fb2
    simp only [propagateRuleCalls, propagateCore]
    repeat' split
    all_goals omega
  · simp only [propagate_input_sharding, propagateCore, hlook, h1, hspec, hsugg, h2]
  · simp only [propagateRuleCalls, propagateCore, hlook, h1, hspec, hsugg, h2]

/-- Witness for C1 (amended) at the concrete rule c1Rule: the retry also
resolves nothing, and the driver still returns it as a successful result. -/
theorem c1_amended_witness :
    (lookupStr [("aten.mm.default", c1Rule)] c1Op.key = some c1Rule) ∧
    (c1Rule (schemaOfCall c1Op.func_schema [] []) =
      Except.ok ⟨none, some [c1SuggSchema], none⟩) ∧
    (c1Rule c1SuggSchema =
      Except.ok ⟨none, none, some ("no viable sharding")⟩) ∧
    ((∀ (op2 : OpOverload) (args2 : List DArg) (kwargs2 : List (String × DArg))
       (rules2 : List (String × Rule)) (fb2 : Bool),
       propagateRuleCalls op2 args2 kwargs2 rules2 fb2 ≤ 2) ∧
    propagate_input_sharding c1Op [] [] [("aten.mm.default", c1Rule)] false =
      Except.ok (c1SuggSchema, true,
        some ⟨none, none, some ("no viable sharding")⟩) ∧
    propagateRuleCalls c1Op [] [] [("aten.mm.default", c1Rule)] false = 2) :=
  ⟨rfl, rfl, rfl,
   c1_amended_single_retry c1Op [] [] [("aten.mm.default", c1Rule)] false c1Rule
     ⟨none, some [c1SuggSchema], none⟩ ⟨none, none, some ("no viable sharding")⟩
     c1SuggSchema [] rfl rfl rfl rfl rfl⟩

/-- A findIdx? search for a key that is not in the list misses. -/
theorem findIdx_none_of_not_mem {α : Type} [DecidableEq α] (l : List α) (x : α)
    (j : Nat) (h : x ∉ l) : l.findIdx? (fun y => y = x) j = none := by
  induction l generalizing j with
  | nil => rfl
  | cons a t ih =>
    have hax : ¬ (a = x) := fun he => h (by simp [he])
    rw [List.findIdx?_cons, if_neg (by simpa using hax)]
    exact ih (j + 1) fun hm => h (by simp [hm])

/-- The dim_map of a fully Replicate descriptor maps every tensor dimension
to -1. -/
theorem dim_map_all_neg (s : DTensorSpec) (h : isFullyReplicate s = true) :
    ∀ d ∈ s.dim_map, d = -1 := by
  intro d hd
  rw [DTensorSpec.dim_map, List.mem_map] at hd
  obtain ⟨i, _, hi⟩ := hd
  rw [isFullyReplicate, List.all_eq_true] at h
  have hnm : Placement.shard i ∉ s.placements := fun hmem => by
    simpa using h _ hmem
  rw [findIdx_none_of_not_mem _ _ _ hnm] at hi
  exact hi.symm

/-- A fully Replicate descriptor carries no pending-reduction markers. -/
theorem sums_nil_of_replicate (s : DTensorSpec) (h : isFullyReplicate s = true) :
    s.sums = [] := by
  rw [isFullyReplicate, List.all_eq_true] at h
  rw [DTensorSpec.sums, List.filter_eq_nil_iff]
  intro m hm
  rw [List.mem_range] at hm
  have hrep := h _ (List.get_mem s.placements m hm)
  rw [decide_eq_true_eq, List.get_eq_getElem] at hrep
  simp only [List.getD_eq_getElem?_getD, List.getElem?_eq_getElem hm, Option.getD_some]
  simp [hrep]

/-- from_dim_map with an all -1 dim_map and no pending sums yields a fully
Replicate descriptor. -/
theorem from_dim_map_replicate (mesh : DeviceMesh) (dm : List Int) (tm : TensorMeta)
    (h : ∀ d ∈ dm, d = -1) :
    isFullyReplicate (DTensorSpec.from_dim_map mesh dm [] tm) = true := by
  rw [isFullyReplicate, DTensorSpec.from_dim_map, List.all_eq_true]
  intro pl hpl
  rw [List.mem_map] at hpl
  obtain ⟨m, _, hm⟩ := hpl
  subst hm
  rw [decide_eq_true_eq]
  have hnm : ((m : Int)) ∉ dm := by
    intro hmem
    have h2 := h _ hmem
    omega
  rw [findIdx_none_of_not_mem dm ((m : Int)) 0 hnm]
  rfl

/-- Claim C3 counterexample: convolution_backward_rules on an all-Replicate
schema resolves descriptors that are not all fully Replicate (grad_weight
and grad_bias carry a pending-reduction marker). -/
theorem c3_counterexample :
    ((c3BackSchema.args_spec.all fun sp => isFullyReplicate sp) = true) ∧
    (((outputSpecsOf (convolution_backward_rules c3BackSchema)).all
        fun sp => isFullyReplicate sp) = false) := by
  decide

/-- Claim C3 (amended): the forward rule preserves full replication (on any
schema it accepts, all-Replicate inputs resolve to an all-Replicate
output), but the backward rule does not: on the all-Replicate schema it
resolves grad_input as Replicate and grad_weight and grad_bias as
pending-sum (Partial) on mesh dimension 0. -/
theorem c3_amended_replicate_passthrough (s : OpSchema) (osh : OutputSharding)
    (hrep : ∀ sp ∈ s.args_spec, isFullyReplicate sp = true)
    (hok : convolution_rules s = Except.ok osh) :
    (∀ sp ∈ outputSpecsOf (Except.ok osh), isFullyReplicate sp = true) ∧
    (outputSpecsOf (convolution_backward_rules c3BackSchema)).map
        (fun sp => sp.placements) =
      [[Placement.replicate], [Placement.partialSum], [Placement.partialSum]] := by
  constructor
  · unfold convolution_rules at hok
    split at hok
    next input_spec weight_spec _bias stride padding dilation _tr _op _gr heq =>
      simp only [] at hok
      split at hok
      · injection hok with hosh
        subst hosh
        intro sp hsp
        simp only [outputSpecsOf] at hsp
        rw [List.mem_singleton] at hsp
        subst hsp
        have hin : input_spec ∈ s.args_spec := by
          rw [OpSchema.args_spec, heq]
          simp [List.filterMap_cons]
        have hr := hrep _ hin
        rw [sums_nil_of_replicate input_spec hr]
        exact from_dim_map_replicate _ _ _ (dim_map_all_neg input_spec hr)
      · exact Except.noConfusion hok
    next => exact Except.noConfusion hok
  · decide

/-- Witness for C3 (amended) at the concrete all-Replicate forward schema. -/
theorem c3_amended_witness :
    (∀ sp ∈ c6Schema.args_spec, isFullyReplicate sp = true) ∧
    (convolution_rules c6Schema =
      Except.ok ⟨some (OutputSpecType.one c6Out), none, none⟩) ∧
    ((∀ sp ∈ outputSpecsOf (Except.ok
        (⟨some (OutputSpecType.one c6Out), none, none⟩ : OutputSharding)),
        isFullyReplicate sp = true) ∧
     (outputSpecsOf (convolution_backward_rules c3BackSchema)).map
         (fun sp => sp.placements) =
       [[Placement.replicate], [Placement.partialSum], [Placement.partialSum]]) :=
  ⟨by decide, by decide,
   c3_amended_replicate_passthrough c6Schema
     ⟨some (OutputSpecType.one c6Out), none, none⟩ (by decide) (by decide)⟩

/-- Claim C6: on every OpSchema matching the convolution signature with
4-dimensional input and weight metadata and two-component stride, padding
and dilation, convolution_rules succeeds and resolves an output descriptor
whose shape is batch size from the input, channel count from the weight,
and each spatial size given by the standard formula with Python floor
division (Int.fdiv); at input spatial size 8, kernel 3, stride 1,
padding 1, dilation 1 both output spatial sizes are 8. -/
theorem c6_conv_output_shape (s : OpSchema) (input_spec weight_spec : DTensorSpec)
    (bias tr opad grp : SchemaArg) (stride padding dilation : List Int)
    (hargs : s.args_schema = [SchemaArg.spec input_spec, SchemaArg.spec weight_spec,
      bias, SchemaArg.val (Value.intList stride), SchemaArg.val (Value.intList padding),
      SchemaArg.val (Value.intList dilation), tr, opad, grp])
    (hin : 4 ≤ input_spec.tensor_meta.shape.length)
    (hw : 4 ≤ weight_spec.tensor_meta.shape.length)
    (hst : 2 ≤ stride.length) (hpd : 2 ≤ padding.length) (hdl : 2 ≤ dilation.length) :
    ((convolution_rules s).isOk = true) ∧
    (∀ osh, convolution_rules s = Except.ok osh →
      ∀ sp ∈ outputSpecsOf (Except.ok osh),
        sp.tensor_meta.shape =
          [input_spec.tensor_meta.shape.getD 0 0,
           weight_spec.tensor_meta.shape.getD 0 0,
           (input_spec.tensor_meta.shape.getD 2 0 + 2 * padding.getD 0 0
             - dilation.getD 0 0 * (weight_spec.tensor_meta.shape.getD 2 0 - 1)
             - 1).fdiv (stride.getD 0 0) + 1,
           (input_spec.tensor_meta.shape.getD 3 0 + 2 * padding.getD 1 0
             - dilation.getD 1 0 * (weight_spec.tensor_meta.shape.getD 3 0 - 1)
             - 1).fdiv (stride.getD 1 0) + 1]) ∧
    c6Out.tensor_meta.shape = [2, 4, 8, 8] := by
  refine ⟨?_, ?_, by decide⟩
  · simp only [convolution_rules, hargs]
    rw [if_pos ⟨hin, hw, hst, hpd, hdl⟩]
    rfl
  · intro osh hok
    simp only [convolution_rules, hargs] at hok
    rw [if_pos ⟨hin, hw, hst, hpd, hdl⟩] at hok
    injection hok with hosh
    subst hosh
    intro sp hsp
    simp only [outputSpecsOf] at hsp
    rw [List.mem_singleton] at hsp
    subst hsp
    rfl

/-- Witness for C6 at the concrete schema c6Schema. -/
theorem c6_witness :
    (c6Schema.args_schema = [SchemaArg.spec c3InputSpec, SchemaArg.spec c3WeightSpec,
       SchemaArg.val Value.noneV, SchemaArg.val (Value.intList [1, 1]),
       SchemaArg.val (Value.intList [1, 1]), SchemaArg.val (Value.intList [1, 1]),
       SchemaArg.val (Value.boolV false), SchemaArg.val (Value.intList [0, 0]),
       SchemaArg.val (Value.int 1)]) ∧
    (((convolution_rules c6Schema).isOk = true) ∧
     (∀ osh, convolution_rules c6Schema = Except.ok osh →
       ∀ sp ∈ outputSpecsOf (Except.ok osh),
         sp.tensor_meta.shape =
           [c3InputSpec.tensor_meta.shape.getD 0 0,
            c3WeightSpec.tensor_meta.shape.getD 0 0,
            (c3InputSpec.tensor_meta.shape.getD 2 0 + 2 * ([1, 1] : List Int).getD 0 0
              - ([1, 1] : List Int).getD 0 0 * (c3WeightSpec.tensor_meta.shape.getD 2 0 - 1)
              - 1).fdiv (([1, 1] : List Int).getD 0 0) + 1,
            (c3InputSpec.tensor_meta.shape.getD 3 0 + 2 * ([1, 1] : List Int).getD 1 0
              - ([1, 1] : List Int).getD 1 0 * (c3WeightSpec.tensor_meta.shape.getD 3 0 - 1)
              - 1).fdiv (([1, 1] : List Int).getD 1 0) + 1]) ∧
     c6Out.tensor_meta.shape = [2, 4, 8, 8]) :=
  ⟨rfl, c6_conv_output_shape c6Schema c3InputSpec c3WeightSpec
    (SchemaArg.val Value.noneV) (SchemaArg.val (Value.boolV false))
    (SchemaArg.val (Value.intList [0, 0])) (SchemaArg.val (Value.int 1))
    [1, 1] [1, 1] [1, 1] rfl (by decide) (by decide) (by decide) (by decide) (by decide)⟩

/-- Claim C7: dispatching an operator whose target schema has is_inplace set
(and whose propagation resolved a single output descriptor) returns the
distributed tensor passed as the first positional argument with only its
spec field replaced by the propagated descriptor: the object identity (tid)
and the local tensor are unchanged, so no fresh wrapper is constructed. -/
theorem c7_inplace_identity
    (redistributeFn : DTensor → DeviceMesh → List Placement → DTensor)
    (op : OpOverload) (t0 : DTensor) (rest : List DArg)
    (kwargs : List (String × DArg)) (rules : List (String × Rule))
    (custom : List (String × CustomFn)) (fb : Bool)
    (ts : OpSchema) (red : Bool) (osh : OutputSharding) (sp : DTensorSpec)
    (hdec : op.key ∉ decompositionTableKeys)
    (hcust : lookupStr custom op.key = none)
    (hprop : propagate_input_sharding op (DArg.dt t0 :: rest) kwargs rules fb =
      Except.ok (ts, red, some osh))
    (hinpl : ts.is_inplace = true)
    (hspec : osh.output_spec = some (OutputSpecType.one sp)) :
    operator_dispatch redistributeFn op (DArg.dt t0 :: rest) kwargs rules custom fb =
      Except.ok (DispatchOut.one { t0 with spec := sp }) ∧
    ({ t0 with spec := sp }).tid = t0.tid ∧
    ({ t0 with spec := sp }).local_tensor = t0.local_tensor := by
  refine ⟨?_, rfl, rfl⟩
  simp only [operator_dispatch, if_neg hdec, hcust, hprop]
  rw [if_pos hinpl, hspec]

/-- Witness for C7 at the concrete in-place operator c7Op. -/
theorem c7_witness :
    (propagate_input_sharding c7Op [DArg.dt c7T0, DArg.dt c7T0] []
       [("aten.add_.Tensor", c7Rule)] false =
      Except.ok (schemaOfCall c7FuncSchema [DArg.dt c7T0, DArg.dt c7T0] [], false,
        some ⟨some (OutputSpecType.one c7OutSpec), none, none⟩)) ∧
    ((schemaOfCall c7FuncSchema [DArg.dt c7T0, DArg.dt c7T0] []).is_inplace = true) ∧
    (operator_dispatch idRedistribute c7Op [DArg.dt c7T0, DArg.dt c7T0] []
       [("aten.add_.Tensor", c7Rule)] [] false =
      Except.ok (DispatchOut.one { c7T0 with spec := c7OutSpec }) ∧
    ({ c7T0 with spec := c7OutSpec }).tid = c7T0.tid ∧
    ({ c7T0 with spec := c7OutSpec }).local_tensor = c7T0.local_tensor) :=
  ⟨by decide, by decide,
   c7_inplace_identity idRedistribute c7Op c7T0 [DArg.dt c7T0] []
     [("aten.add_.Tensor", c7Rule)] [] false
     (schemaOfCall c7FuncSchema [DArg.dt c7T0, DArg.dt c7T0] []) false
     ⟨some (OutputSpecType.one c7OutSpec), none, none⟩ c7OutSpec
     (by decide) rfl (by decide) (by decide) (by decide)⟩

/-- Claim C8: when propagation reports no output sharding (the fallback
path, reachable with the fallback flag enabled), operator_dispatch unwraps
every positional and keyword argument to its local tensor, calls the
operator directly on those local tensors, and wraps the raw result with the
first entry of the target schema args_spec as the output descriptor. -/
theorem c8_fallback_wrap_first_spec
    (redistributeFn : DTensor → DeviceMesh → List Placement → DTensor)
    (op : OpOverload) (args : List DArg) (kwargs : List (String × DArg))
    (rules : List (String × Rule)) (custom : List (String × CustomFn))
    (ts : OpSchema) (red : Bool) (s0 : DTensorSpec) (srest : List DTensorSpec)
    (hdec : op.key ∉ decompositionTableKeys)
    (hcust : lookupStr custom op.key = none)
    (hprop : propagate_input_sharding op args kwargs rules true =
      Except.ok (ts, red, none))
    (hspec : ts.args_spec = s0 :: srest) :
    operator_dispatch redistributeFn op args kwargs rules custom true =
      wrap (op.localImpl (args.map unwrap_local_tensor)
        (kwargs.map fun q => (q.1, unwrap_local_tensor q.2)))
        (some (OutputSpecType.one s0)) := by
  simp only [operator_dispatch, if_neg hdec, hcust, hprop, hspec]

/-- Witness for C8 at the concrete rule-less operator c8Op: the raw relu
result of the local shard is wrapped with the descriptor of the first
input. -/
theorem c8_witness :
    (propagate_input_sharding c8Op [DArg.dt c8T0] [] [] true =
      Except.ok (schemaOfCall c8Op.func_schema [DArg.dt c8T0] [], false, none)) ∧
    ((schemaOfCall c8Op.func_schema [DArg.dt c8T0] []).args_spec = [c7Spec]) ∧
    (operator_dispatch idRedistribute c8Op [DArg.dt c8T0] [] [] [] true =
      wrap (c8Op.localImpl ([DArg.dt c8T0].map unwrap_local_tensor)
        (([] : List (String × DArg)).map fun q => (q.1, unwrap_local_tensor q.2)))
        (some (OutputSpecType.one c7Spec))) :=
  ⟨by decide, by decide,
   c8_fallback_wrap_first_spec idRedistribute c8Op [DArg.dt c8T0] [] [] []
     (schemaOfCall c8Op.func_schema [DArg.dt c8T0] []) false c7Spec []
     (by decide) rfl (by decide) (by decide)⟩

/-- Every out formal resolved by a successful resolveOutArgs run was passed
as a keyword argument holding a distributed tensor. -/
theorem resolveOutArgs_found (l : List FuncArg) (kwargs : List (String × DArg))
    (specs : List DTensorSpec) (res : List DTensor)
    (h : resolveOutArgs l kwargs specs = Except.ok res) :
    ∀ a ∈ l, a.is_out = true → ∃ t, lookupStr kwargs a.name = some (DArg.dt t) := by
  induction l generalizing specs res with
  | nil => intro a ha; exact absurd ha (List.not_mem_nil a)
  | cons b tl ih =>
    intro a ha hout
    simp only [resolveOutArgs] at h
    by_cases hb : b.is_out = true
    · rw [if_pos hb] at h
      cases hl : lookupStr kwargs b.name with
      | none => rw [hl] at h; exact Except.noConfusion h
      | some d =>
        rw [hl] at h
        cases d with
        | val v => exact Except.noConfusion h
        | dt tt =>
          cases specs with
          | nil => exact Except.noConfusion h
          | cons s1 srest =>
            dsimp only at h
            cases hr : resolveOutArgs tl kwargs srest with
            | error e => rw [hr] at h; exact Except.noConfusion h
            | ok res2 =>
              rcases List.mem_cons.mp ha with hab | hatl
              · subst hab; exact ⟨tt, hl⟩
              · exact ih srest res2 hr a hatl hout
    · rw [if_neg hb] at h
      rcases List.mem_cons.mp ha with hab | hatl
      · subst hab; exact absurd hout hb
      · exact ih specs res h a hatl hout

/-- A successful resolveOutArgs run returns one tensor per out formal. -/
theorem resolveOutArgs_length (l : List FuncArg) (kwargs : List (String × DArg))
    (specs : List DTensorSpec) (res : List DTensor)
    (h : resolveOutArgs l kwargs specs = Except.ok res) :
    res.length = (l.filter fun a => a.is_out).length := by
  induction l generalizing specs res with
  | nil =>
    simp only [resolveOutArgs] at h
    injection h with h2
    subst h2
    rfl
  | cons b tl ih =>
    simp only [resolveOutArgs] at h
    by_cases hb : b.is_out = true
    · rw [if_pos hb] at h
      cases hl : lookupStr kwargs b.name with
      | none => rw [hl] at h; exact Except.noConfusion h
      | some d =>
        rw [hl] at h
        cases d with
        | val v => exact Except.noConfusion h
        | dt tt =>
          cases specs with
          | nil => exact Except.noConfusion h
          | cons s1 srest =>
            dsimp only at h
            cases hr : resolveOutArgs tl kwargs srest with
            | error e => rw [hr] at h; exact Except.noConfusion h
            | ok res2 =>
              rw [hr] at h
              injection h with h2
              subst h2
              simp only [List.filter_cons, hb, if_true, List.length_cons]
              rw [ih srest res2 hr]
    · rw [if_neg hb] at h
      simp only [List.filter_cons]
      rw [if_neg (by simpa using hb)]
      exact ih specs res h

/-- With no out formal at all, resolveOutArgs returns the empty list. -/
theorem resolveOutArgs_no_out (l : List FuncArg) (kwargs : List (String × DArg))
    (specs : List DTensorSpec) (h : (l.filter fun a => a.is_out) = []) :
    resolveOutArgs l kwargs specs = Except.ok [] := by
  induction l generalizing specs with
  | nil => rfl
  | cons b tl ih =>
    rw [List.filter_cons] at h
    by_cases hb : b.is_out = true
    · rw [if_pos (by simpa using hb)] at h
      exact absurd h (List.cons_ne_nil _ _)
    · rw [if_neg (by simpa using hb)] at h
      simp only [resolveOutArgs, if_neg hb]
      exact ih specs h

/-- Claim C10: an out-variant dispatch resolves each out formal by looking
its name up in the keyword arguments; it can only succeed when every
declared out formal was passed as a keyword argument holding a distributed
tensor and at least one out formal exists, and with no out formal the
at-least-one assertion fails the dispatch. -/
theorem c10_out_variant_kwargs
    (redistributeFn : DTensor → DeviceMesh → List Placement → DTensor)
    (op : OpOverload) (args : List DArg) (kwargs : List (String × DArg))
    (rules : List (String × Rule)) (custom : List (String × CustomFn)) (fb : Bool)
    (ts : OpSchema) (red : Bool) (osh : OutputSharding)
    (hdec : op.key ∉ decompositionTableKeys)
    (hcust : lookupStr custom op.key = none)
    (hprop : propagate_input_sharding op args kwargs rules fb =
      Except.ok (ts, red, some osh))
    (hinpl : ts.is_inplace = false)
    (hout : ts.is_out_variant = true) :
    (∀ res, operator_dispatch redistributeFn op args kwargs rules custom fb =
        Except.ok res →
      (∀ a ∈ ts.func_schema.arguments, a.is_out = true →
        ∃ t, lookupStr kwargs a.name = some (DArg.dt t)) ∧
      (ts.func_schema.arguments.any fun a => a.is_out) = true) ∧
    ((ts.func_schema.arguments.filter fun a => a.is_out) = [] →
      operator_dispatch redistributeFn op args kwargs rules custom fb =
        Except.error ("out variant should have at least one out arg")) := by
  have hd : operator_dispatch redistributeFn op args kwargs rules custom fb =
      match resolveOutArgs ts.func_schema.arguments kwargs
        (match osh.output_spec with
         | some (OutputSpecType.one s1) => [s1]
         | some (OutputSpecType.many ss) => ss
         | none => []) with
      | Except.error e => Except.error e
      | Except.ok out_dts =>
        if 1 ≤ out_dts.length then
          if 1 < out_dts.length then Except.ok (DispatchOut.tup out_dts)
          else Except.ok (DispatchOut.one (out_dts.getD 0 default))
        else Except.error ("out variant should have at least one out arg") := by
    simp only [operator_dispatch, if_neg hdec, hcust, hprop]
    rw [if_neg (by simp [hinpl]), if_pos hout]
    try rfl
  constructor
  · intro res hres
    rw [hd] at hres
    cases hr : resolveOutArgs ts.func_schema.arguments kwargs
        (match osh.output_spec with
         | some (OutputSpecType.one s1) => [s1]
         | some (OutputSpecType.many ss) => ss
         | none => []) with
    | error e => rw [hr] at hres; exact Except.noConfusion hres
    | ok out_dts =>
      rw [hr] at hres
      dsimp only at hres
      have h1 : 1 ≤ out_dts.length := by
        by_contra hno
        rw [if_neg hno] at hres
        exact Except.noConfusion hres
      refine ⟨resolveOutArgs_found _ _ _ _ hr, ?_⟩
      have hlen := resolveOutArgs_length _ _ _ _ hr
      rw [hlen] at h1
      cases hf : (ts.func_schema.arguments.filter fun a => a.is_out) with
      | nil => rw [hf] at h1; simp at h1
      | cons x xs =>
        have hx : x ∈ ts.func_schema.arguments.filter fun a => a.is_out := by
          rw [hf]
          exact List.mem_cons_self x xs
        rw [List.mem_filter] at hx
        rw [List.any_eq_true]
        exact ⟨x, hx.1, hx.2⟩
  · intro hf
    rw [hd, resolveOutArgs_no_out _ _ _ hf]
    simp

/-- Witness for C10 at the concrete out-variant operator c10Op with the out
tensor passed as a keyword argument. -/
theorem c10_witness :
    (propagate_input_sharding c10Op [DArg.dt c10TIn, DArg.dt c10TIn]
       [("out", DArg.dt c10TOut)] [("aten.add.out", c10Rule)] false =
      Except.ok (schemaOfCall c10FuncSchema [DArg.dt c10TIn, DArg.dt c10TIn]
          [("out", DArg.dt c10TOut)], false,
        some ⟨some (OutputSpecType.one c7OutSpec), none, none⟩)) ∧
    ((schemaOfCall c10FuncSchema [DArg.dt c10TIn, DArg.dt c10TIn]
        [("out", DArg.dt c10TOut)]).is_out_variant = true) ∧
    ((∀ res, operator_dispatch idRedistribute c10Op [DArg.dt c10TIn, DArg.dt c10TIn]
        [("out", DArg.dt c10TOut)] [("aten.add.out", c10Rule)] [] false =
        Except.ok res →
      (∀ a ∈ (schemaOfCall c10FuncSchema [DArg.dt c10TIn, DArg.dt c10TIn]
          [("out", DArg.dt c10TOut)]).func_schema.arguments, a.is_out = true →
        ∃ t, lookupStr [("out", DArg.dt c10TOut)] a.name = some (DArg.dt t)) ∧
      ((schemaOfCall c10FuncSchema [DArg.dt c10TIn, DArg.dt c10TIn]
          [("out", DArg.dt c10TOut)]).func_schema.arguments.any
        fun a => a.is_out) = true) ∧
    (((schemaOfCall c10FuncSchema [DArg.dt c10TIn, DArg.dt c10TIn]
        [("out", DArg.dt c10TOut)]).func_schema.arguments.filter
          fun a => a.is_out) = [] →
      operator_dispatch idRedistribute c10Op [DArg.dt c10TIn, DArg.dt c10TIn]
          [("out", DArg.dt c10TOut)] [("aten.add.out", c10Rule)] [] false =
        Except.error ("out variant should have at least one out arg"))) :=
  ⟨by decide, by decide,
   c10_out_variant_kwargs idRedistribute c10Op [DArg.dt c10TIn, DArg.dt c10TIn]
     [("out", DArg.dt c10TOut)] [("aten.add.out", c10Rule)] [] false
     (schemaOfCall c10FuncSchema [DArg.dt c10TIn, DArg.dt c10TIn]
       [("out", DArg.dt c10TOut)]) false
     ⟨some (OutputSpecType.one c7OutSpec), none, none⟩
     (by decide) rfl (by decide) (by decide) (by decide)⟩

/-- Overwriting one list entry leaves every other getD unchanged. -/
theorem getD_set_ne {α : Type} (l : List α) (i j : Nat) (x d : α) (hij : i ≠ j) :
    (l.set i x).getD j d = l.getD j d := by
  induction l generalizing i j with
  | nil => rfl
  | cons a t ih =>
    cases i with
    | zero =>
      cases j with
      | zero => exact absurd rfl hij
      | succ j2 => rfl
    | succ i2 =>
      cases j with
      | zero => rfl
      | succ j2 => exact ih i2 j2 fun he => hij (by rw [he])

/-- The point-to-point operations tp_convolution_backward posts on rank r in
its two exchange rounds: kinds and peers follow the fixed pattern
[send right, send left, recv left, recv right] twice. -/
theorem tpConvBackwardSim_comms (f : List Int → List Int → List Int)
    (gradOuts shards : List (List Int)) (ker : List Int)
    (stride p dil r : Nat) (b : Bool)
    (hsup : isSupportedW (shards.getD r []).length ker.length stride p dil
      = Except.ok b)
    (hp : p ≠ 0) :
    (tpConvBackwardSim f gradOuts shards ker stride p dil r).2.map
        (fun o => (o.kind, o.peer)) =
      [(P2PKind.isend, (r + 1) % shards.length),
       (P2PKind.isend, (r + shards.length - 1) % shards.length),
       (P2PKind.irecv, (r + shards.length - 1) % shards.length),
       (P2PKind.irecv, (r + 1) % shards.length),
       (P2PKind.isend, (r + 1) % shards.length),
       (P2PKind.isend, (r + shards.length - 1) % shards.length),
       (P2PKind.irecv, (r + shards.length - 1) % shards.length),
       (P2PKind.irecv, (r + 1) % shards.length)] := by
  have hreq : requiresDataExchangeW p = true := by
    simp [requiresDataExchangeW]
    exact hp
  simp only [tpConvBackwardSim, hsup, hreq, not_true, if_false]
  rfl

/-- Claim C9 counterexample: with world size 4 and padding 1, rank 0 posts a
send to and a receive from rank 3, its wrap-around ring neighbour, in the
forward halo exchange. -/
theorem c9_counterexample :
    ((tpConvSim [[1], [2], [3], [4]] [1, 1, 1] 1 1 1 0).2.map
        fun o => (o.kind, o.peer)) =
      [(P2PKind.isend, 1), (P2PKind.isend, 3),
       (P2PKind.irecv, 3), (P2PKind.irecv, 1)] := by
  decide

/-- Claim C9 (amended): in the halo-exchange paths of tp_convolution and
tp_convolution_backward the edge ranks DO post sends to and receives from
their wrap-around ring neighbour (rank 0 exchanges with rank size - 1 and
vice versa, in every exchange round), but the wrap-around data received at
an edge is discarded: the input reconstruction on rank 0 ignores the left
halo and on the last rank ignores the right halo, the backward gradient
aggregation likewise ignores the wrap-around contribution, and consequently
the forward result and operations of rank 0 do not depend on the shard of
the last rank, nor those of the last rank on the shard of rank 0. -/
theorem c9_amended_edge_exchange (shards gradOuts : List (List Int))
    (ker x : List Int) (stride p dil : Nat) (b bL : Bool)
    (f : List Int → List Int → List Int)
    (hL : 3 ≤ shards.length) (hp : p ≠ 0)
    (hsup0 : isSupportedW (shards.getD 0 []).length ker.length stride p dil
      = Except.ok b)
    (hsupL : isSupportedW (shards.getD (shards.length - 1) []).length
      ker.length stride p dil = Except.ok bL) :
    (tpConvSim (shards.set (shards.length - 1) x) ker stride p dil 0 =
      tpConvSim shards ker stride p dil 0) ∧
    (tpConvSim (shards.set 0 x) ker stride p dil (shards.length - 1) =
      tpConvSim shards ker stride p dil (shards.length - 1)) ∧
    ((tpConvSim shards ker stride p dil 0).2.map (fun o => (o.kind, o.peer)) =
      [(P2PKind.isend, 1), (P2PKind.isend, shards.length - 1),
       (P2PKind.irecv, shards.length - 1), (P2PKind.irecv, 1)]) ∧
    ((tpConvSim shards ker stride p dil (shards.length - 1)).2.map
        (fun o => (o.kind, o.peer)) =
      [(P2PKind.isend, 0), (P2PKind.isend, shards.length - 2),
       (P2PKind.irecv, shards.length - 2), (P2PKind.irecv, 0)]) ∧
    ((tpConvBackwardSim f gradOuts shards ker stride p dil 0).2.map
        (fun o => (o.kind, o.peer)) =
      [(P2PKind.isend, 1), (P2PKind.isend, shards.length - 1),
       (P2PKind.irecv, shards.length - 1), (P2PKind.irecv, 1),
       (P2PKind.isend, 1), (P2PKind.isend, shards.length - 1),
       (P2PKind.irecv, shards.length - 1), (P2PKind.irecv, 1)]) ∧
    (∀ inT recvL recvL2 recvR : List Int,
      reconstructInput inT recvL recvR 0 shards.length =
        reconstructInput inT recvL2 recvR 0 shards.length) ∧
    (∀ inT recvL recvR recvR2 : List Int,
      reconstructInput inT recvL recvR (shards.length - 1) shards.length =
        reconstructInput inT recvL recvR2 (shards.length - 1) shards.length) ∧
    (∀ (gi recvL recvL2 recvR : List Int) (d1 d2 : Nat),
      aggregateGrad gi recvL recvR d1 d2 0 shards.length =
        aggregateGrad gi recvL2 recvR d1 d2 0 shards.length) ∧
    (∀ (gi recvL recvR recvR2 : List Int) (d1 d2 : Nat),
      aggregateGrad gi recvL recvR d1 d2 (shards.length - 1) shards.length =
        aggregateGrad gi recvL recvR2 d1 d2 (shards.length - 1) shards.length) := by
  have hne0 : shards.length - 1 ≠ 0 := by omega
  have hne1 : shards.length - 1 ≠ 1 := by omega
  have h0L : (0 : Nat) ≠ shards.length - 1 := fun he => hne0 he.symm
  have h0L2 : (0 : Nat) ≠ shards.length - 2 := by omega
  have hr1 : (0 + 1) % shards.length = 1 := by
    rw [Nat.zero_add]
    exact Nat.mod_eq_of_lt (by omega)
  have hl1 : (0 + shards.length - 1) % shards.length = shards.length - 1 := by
    rw [Nat.zero_add]
    exact Nat.mod_eq_of_lt (by omega)
  have hrR : (shards.length - 1 + 1) % shards.length = 0 := by
    rw [Nat.sub_add_cancel (by omega)]
    exact Nat.mod_self _
  have hlR : (shards.length - 1 + shards.length - 1) % shards.length
      = shards.length - 2 := by
    have h2 : shards.length - 1 + shards.length - 1
        = shards.length + (shards.length - 2) := by omega
    rw [h2, Nat.add_mod_left]
    exact Nat.mod_eq_of_lt (by omega)
  refine ⟨?_, ?_, ?_, ?_, ?_, ?_, ?_, ?_, ?_⟩
  · have hlen : (shards.set (shards.length - 1) x).length = shards.length :=
      List.length_set shards (shards.length - 1) x
    have hg0 : (shards.set (shards.length - 1) x).getD 0 [] = shards.getD 0 [] :=
      getD_set_ne shards (shards.length - 1) 0 x [] hne0
    have hg1 : (shards.set (shards.length - 1) x).getD 1 [] = shards.getD 1 [] :=
      getD_set_ne shards (shards.length - 1) 1 x [] hne1
    rw [tpConvSim_exchange shards ker stride p dil 0 b hsup0 hp,
        tpConvSim_exchange (shards.set (shards.length - 1) x) ker stride p dil 0 b
          (by rw [hg0]; exact hsup0) hp]
    rw [hlen, hg0, hr1, hl1, hg1]
    simp only [reconstructInput, if_pos rfl, if_true]
  · have hlen : (shards.set 0 x).length = shards.length :=
      List.length_set shards 0 x
    have hgL : (shards.set 0 x).getD (shards.length - 1) []
        = shards.getD (shards.length - 1) [] :=
      getD_set_ne shards 0 (shards.length - 1) x [] h0L
    have hgL2 : (shards.set 0 x).getD (shards.length - 2) []
        = shards.getD (shards.length - 2) [] :=
      getD_set_ne shards 0 (shards.length - 2) x [] h0L2
    rw [tpConvSim_exchange shards ker stride p dil (shards.length - 1) bL hsupL hp,
        tpConvSim_exchange (shards.set 0 x) ker stride p dil (shards.length - 1) bL
          (by rw [hgL]; exact hsupL) hp]
    rw [hlen, hgL, hrR, hlR, hgL2]
    simp only [reconstructInput, if_neg hne0, if_pos rfl, if_true]
  · rw [tpConvSim_exchange shards ker stride p dil 0 b hsup0 hp, hr1, hl1]
    rfl
  · rw [tpConvSim_exchange shards ker stride p dil (shards.length - 1) bL hsupL hp,
        hrR, hlR]
    rfl
  · rw [tpConvBackwardSim_comms f gradOuts shards ker stride p dil 0 b hsup0 hp,
        hr1, hl1]
  · intro inT recvL recvL2 recvR
    simp [reconstructInput]
  · intro inT recvL recvR recvR2
    simp only [reconstructInput, if_neg hne0, if_pos rfl, if_true]
  · intro gi recvL recvL2 recvR d1 d2
    simp [aggregateGrad]
  · intro gi recvL recvR recvR2 d1 d2
    simp only [aggregateGrad, if_neg hne0, if_pos rfl, if_true]

/-- Witness for C9 (amended) at world size 3, kernel width 3, padding 1. -/
theorem c9_amended_witness :
    (3 ≤ ([[1, 2], [3, 4], [5, 6]] : List (List Int)).length) ∧
    ((1 : Nat) ≠ 0) ∧
    (isSupportedW (([[1, 2], [3, 4], [5, 6]] : List (List Int)).getD 0 []).length
      ([1, 1, 1] : List Int).length 1 1 1 = Except.ok true) ∧
    (isSupportedW (([[1, 2], [3, 4], [5, 6]] : List (List Int)).getD 2 []).length
      ([1, 1, 1] : List Int).length 1 1 1 = Except.ok true) ∧
    ((tpConvSim ([[1, 2], [3, 4], [5, 6]].set 2 [9]) [1, 1, 1] 1 1 1 0 =
       tpConvSim [[1, 2], [3, 4], [5, 6]] [1, 1, 1] 1 1 1 0) ∧
     (tpConvSim ([[1, 2], [3, 4], [5, 6]].set 0 [9]) [1, 1, 1] 1 1 1 2 =
       tpConvSim [[1, 2], [3, 4], [5, 6]] [1, 1, 1] 1 1 1 2) ∧
     ((tpConvSim [[1, 2], [3, 4], [5, 6]] [1, 1, 1] 1 1 1 0).2.map
         (fun o => (o.kind, o.peer)) =
       [(P2PKind.isend, 1), (P2PKind.isend, 2),
        (P2PKind.irecv, 2), (P2PKind.irecv, 1)]) ∧
     ((tpConvSim [[1, 2], [3, 4], [5, 6]] [1, 1, 1] 1 1 1 2).2.map
         (fun o => (o.kind, o.peer)) =
       [(P2PKind.isend, 0), (P2PKind.isend, 1),
        (P2PKind.irecv, 1), (P2PKind.irecv, 0)]) ∧
     ((tpConvBackwardSim (fun g _ => g) [[7], [8], [9]]
         [[1, 2], [3, 4], [5, 6]] [1, 1, 1] 1 1 1 0).2.map
         (fun o => (o.kind, o.peer)) =
       [(P2PKind.isend, 1), (P2PKind.isend, 2),
        (P2PKind.irecv, 2), (P2PKind.irecv, 1),
        (P2PKind.isend, 1), (P2PKind.isend, 2),
        (P2PKind.irecv, 2), (P2PKind.irecv, 1)]) ∧
     (∀ inT recvL recvL2 recvR : List Int,
       reconstructInput inT recvL recvR 0 3 =
         reconstructInput inT recvL2 recvR 0 3) ∧
     (∀ inT recvL recvR recvR2 : List Int,
       reconstructInput inT recvL recvR 2 3 =
         reconstructInput inT recvL recvR2 2 3) ∧
     (∀ (gi recvL recvL2 recvR : List Int) (d1 d2 : Nat),
       aggregateGrad gi recvL recvR d1 d2 0 3 =
         aggregateGrad gi recvL2 recvR d1 d2 0 3) ∧
     (∀ (gi recvL recvR recvR2 : List Int) (d1 d2 : Nat),
       aggregateGrad gi recvL recvR d1 d2 2 3 =
         aggregateGrad gi recvL recvR2 d1 d2 2 3)) :=
  ⟨by decide, by decide, by decide, by decide,
   c9_amended_edge_exchange [[1, 2], [3, 4], [5, 6]] [[7], [8], [9]]
     [1, 1, 1] [9] 1 1 1 true true (fun g _ => g)
     (by decide) (by decide) (by decide) (by decide)⟩
